import Mathlib

/-!
# Verification of the InvenTree plugin loader (`InvenTree/plugin/apps.py`)

A shallow embedding of `PluginAppConfig`: the load / unload / reload
orchestration, the retry-with-blacklist loop, the capability binders and the
registry hot-swap wrapper.  Python's process-wide mutable settings are modelled
as an explicit `State` record, Python exceptions as explicit error results that
carry the state at the point of the raise (Python does not roll back state on
an exception), and the unbounded `while` loop of `load_plugins` as a
fuel-indexed recursion (`LRes.noFuel` marks fuel exhaustion, i.e. the loop was
still running after the given number of passes).
-/

namespace InvPlugin

/-! ## String utilities

`slugify` follows `django.utils.text.slugify` (an external collaborator of the
source): drop non-ASCII, lowercase, drop characters other than alphanumerics,
underscore, hyphen and whitespace, collapse runs of hyphens/whitespace to a
single hyphen, and strip leading/trailing hyphens and underscores. -/

/-- Characters kept by the slugify normalisation (`[^\w\s-]` is removed). -/
def slugKeep (c : Char) : Bool :=
  c.toNat < 128 && (c.isAlphanum || c = '_' || c = '-' || c.isWhitespace)

/-- One step of collapsing runs of hyphens/whitespace into a single `-`. -/
def slugStep (c : Char) (acc : List Char) : List Char :=
  if c = '-' || c.isWhitespace then
    match acc with
    | '-' :: _ => acc
    | _ => '-' :: acc
  else c :: acc

/-- Strip leading and trailing `-` and `_` (`.strip('-_')`). -/
def stripDashUnderscore (l : List Char) : List Char :=
  ((l.dropWhile fun c => c = '-' || c = '_').reverse.dropWhile
    fun c => c = '-' || c = '_').reverse

/-- Model of `django.utils.text.slugify` (Django 3.2, `allow_unicode=False`). -/
def slugify (s : String) : String :=
  let cs := (s.data.map Char.toLower).filter slugKeep
  String.mk (stripDashUnderscore (cs.foldr slugStep []))

/-- Model of `plugin_path.split('.')[-1]` — everything after the last dot. -/
def lastComponent (s : String) : String :=
  String.mk (s.data.foldl (fun acc c => if c = '.' then [] else acc ++ [c]) [])

/-- Model of `'.'.join(parts)`. -/
def joinDots : List String → String
  | [] => ""
  | [x] => x
  | x :: xs => x ++ "." ++ joinDots xs

/-- Boolean path-prefix test, modelling `pathlib.Path.relative_to` succeeding. -/
def prefixOfL : List String → List String → Bool
  | [], _ => true
  | _ :: _, [] => false
  | a :: as, b :: bs => if a = b then prefixOfL as bs else false

/-! ## Dictionary utilities (Python `dict` on string keys)

Assignment keeps the position of an existing key and otherwise appends, as
Python dicts preserve insertion order. -/

/-- `d.get(k)` on an association list. -/
def alookup {α : Type} (k : String) : List (String × α) → Option α
  | [] => none
  | (k', v) :: rest => if k' = k then some v else alookup k rest

/-- `d[k] = v` on an association list. -/
def dictSet {α : Type} (m : List (String × α)) (k : String) (v : α) :
    List (String × α) :=
  if k ∈ m.map Prod.fst then
    m.map fun kv => if kv.1 = k then (k, v) else kv
  else m ++ [(k, v)]

/-- The keys of an association list, in insertion order. -/
def dictKeys {α : Type} (m : List (String × α)) : List String := m.map Prod.fst

/-- `acc.update(dict.fromkeys(ks))` restricted to keys: append missing keys. -/
def addKeys (acc : List String) (ks : List String) : List String :=
  ks.foldl (fun a k => if k ∈ a then a else a ++ [k]) acc

/-! ## Data model -/

/-- A discovered, uninstantiated plugin class (`settings.PLUGINS` entry).
`instFails` marks a class whose constructor call `plugin()` raises a generic
exception; `fsPath` is the filesystem location `plugin.path` as path parts. -/
structure Plugin where
  pluginName : String
  pluginSlug : Option String
  className : String
  isPackage : Bool
  fsPath : List String
  instFails : Bool
  hasApp : Bool
  hasSettings : Bool
  settingsKeys : List String
deriving DecidableEq, Repr

/-- A persisted `PluginConfig` row. -/
structure PluginConfigRec where
  pk : Nat
  key : String
  name : String
  active : Bool
deriving DecidableEq, Repr

/-- An instantiated plugin held in the active registry. -/
structure ActivePlugin where
  slug : String
  isPackage : Bool
  pk : Option Nat
  base : Plugin
deriving DecidableEq, Repr

/-- A Django `AppConfig` as the loader observes it: its label, the models it
currently has registered, the models its models submodule defines (what a
re-import would register), whether `models_module` is set and whether the app
module has an `admin` submodule. -/
structure AppConfigRec where
  label : String
  models : List String
  declaredModels : List String
  modelsModuleSet : Bool
  hasAdminModule : Bool
deriving DecidableEq, Repr

/-- Python exceptions observable by the loader. -/
inductive PyError where
  /-- `django.db.utils.OperationalError` / `ProgrammingError`. -/
  | dbError
  /-- Unique-constraint violation on `PluginConfig.key`. -/
  | integrityError
  /-- `KeyError` from a `dict.pop` with no default. -/
  | keyError (k : String)
  /-- `admin.sites.NotRegistered` from `admin.site.unregister`. -/
  | notRegistered (m : String)
  /-- `ValueError` from `pathlib.Path.relative_to`. -/
  | valueError
  /-- `IndexError` from `parts[0]` on an empty tuple. -/
  | indexError
  /-- The structured `PluginLoadingError(path, message)` of `apps.py`. -/
  | pluginLoadingError (path : String) (message : String)
  /-- Any other exception (e.g. raised by a plugin constructor). -/
  | genericError (m : String)
deriving DecidableEq, Repr

/-- The process-wide mutable state the loader reads and writes:
Django `settings` fields, the persisted `PluginConfig` table, the Django app
registry, the admin site and the route table, plus the static configuration
(test flags, base directory, site-packages root, which plugin apps raise
on import and with which traceback filename). -/
structure State where
  pluginTesting : Bool
  enableGlobalSettings : Bool
  enableApp : Bool
  baseDir : List String
  purelib : List String
  plugins : List Plugin
  integrationPlugins : List (String × ActivePlugin)
  integrationPluginsInactive : List (String × Option PluginConfigRec)
  installedApps : List String
  integrationAppsPaths : List String
  integrationPluginGlobalSetting : List (String × List String)
  globalSettings : List String
  integrationAppsLoading : Bool
  integrationAppsLoaded : Bool
  integrationPluginsReloading : Bool
  maintenance : Bool
  db : List PluginConfigRec
  dbDown : Bool
  nextPk : Nat
  appFaults : List (String × (List String × String))
  availableApps : List (String × AppConfigRec)
  appConfigs : List AppConfigRec
  adminSite : List String
  allModels : List (String × List String)
  pluginErrors : List (String × String)
  urlRebuilds : Nat
deriving DecidableEq, Repr

/-- Result of a state-transforming step: normal return or a raised exception,
both carrying the state at that point. -/
inductive Act where
  | ok (st : State)
  | err (e : PyError) (st : State)
deriving DecidableEq, Repr

/-- Result of `PluginConfig.objects.get_or_create`. -/
inductive GRes where
  | ok (r : PluginConfigRec) (st : State)
  | err (e : PyError) (st : State)
deriving DecidableEq, Repr

/-- Result of the host registry hot-swap primitive: normal return, or an
exception whose originating stack frame has filename `tb` and message `msg`. -/
inductive HotRes where
  | ok (st : State)
  | fail (tb : List String) (msg : String) (st : State)
deriving DecidableEq, Repr

/-- Result of the fuel-indexed `while` loop of `load_plugins`: normal return,
a raised exception, or fuel exhausted (the loop was still running). -/
inductive LRes where
  | ok (st : State)
  | err (e : PyError) (st : State)
  | noFuel (st : State)
deriving DecidableEq, Repr

/-- The state carried by an `Act`. -/
def Act.state : Act → State
  | .ok st => st
  | .err _ st => st

/-- Whether an `Act` is a normal return. -/
def Act.isOk : Act → Bool
  | .ok _ => true
  | .err _ _ => false

/-- The state carried by an `LRes`. -/
def LRes.state : LRes → State
  | .ok st => st
  | .err _ st => st
  | .noFuel st => st

/-- Whether an `LRes` is a normal return. -/
def LRes.isOk : LRes → Bool
  | .ok _ => true
  | _ => false

/-- Whether an `LRes` is a raised exception. -/
def LRes.isErr : LRes → Bool
  | .err _ _ => true
  | _ => false

/-- Whether an `LRes` ran out of fuel (loop still running). -/
def LRes.isNoFuel : LRes → Bool
  | .noFuel _ => true
  | _ => false

/-! ## Plugin identity -/

/-- `plug_key` (apps.py 157–159): slugify of `PLUGIN_SLUG` if set, else of
`PLUGIN_NAME`. -/
def plugKey (p : Plugin) : String :=
  slugify (p.pluginSlug.getD p.pluginName)

/-- Modelled from the spec: the `slug` attribute of an instantiated plugin
(`IntegrationPluginBase`, `plugin/integration.py`, not in `src/`) — §3: "slug —
a normalized, URL-safe, case-insensitive key derived from name or an explicit
override"; the same derivation as the registration key. -/
def instanceSlug (p : Plugin) : String := plugKey p

/-- `_get_plugin_path` (apps.py 320–332): relativize the plugin's filesystem
location against `BASE_DIR` and join with dots; if `relative_to` raises
`ValueError` (a packaged plugin), fall back to `PLUGIN_NAME`. -/
def pluginPath (baseDir : List String) (p : Plugin) : String :=
  if prefixOfL baseDir p.fsPath then joinDots (p.fsPath.drop baseDir.length)
  else p.pluginName

/-! ## Persistence collaborator -/

/-- Modelled from the spec: `PluginConfig.objects.get_or_create(key=…, name=…)`
(`plugin/models.py` is not in `src/`) — §6: "get_or_create(slug, name) →
(record, created) … May raise a transient 'not ready' error", §3: slug
uniqueness "is an invariant enforced at registration time (two plugins
colliding on slug is a configuration error, not silently resolved)": a lookup
on both `key` and `name`; creating a row whose `key` already exists violates
the unique constraint; a newly created record starts inactive (§4.2: plugins
become active through their "persisted-active" flag or the testing override).
When the store is not yet provisioned every access raises the transient
error. -/
def getOrCreate (k n : String) (st : State) : GRes :=
  if st.dbDown then .err .dbError st
  else
    match st.db.find? fun r => r.key = k && r.name = n with
    | some r => .ok r st
    | none =>
      if st.db.any fun r => r.key = k then .err .integrityError st
      else
        let r : PluginConfigRec := ⟨st.nextPk, k, n, false⟩
        .ok r { st with db := st.db ++ [r], nextPk := st.nextPk + 1 }

/-- `plugin_db_setting.save()`: write back the row with this primary key. -/
def dbSave (r : PluginConfigRec) (db : List PluginConfigRec) :
    List PluginConfigRec :=
  db.map fun q => if q.pk = r.pk then r else q

/-! ## `_init_plugins` (apps.py 139–200) -/

/-- The part of the `_init_plugins` loop body after the persistence access
(apps.py 169–200): check eligibility (`PLUGIN_TESTING` override or
persisted-active); the blacklisted plugin has its record disabled and saved
(skipped under test configuration), is recorded in the inactive map and
skipped; an eligible, non-blacklisted plugin is instantiated (`plugin()` — a
raising constructor is NOT caught anywhere in `load_plugins`) and inserted into
the active registry; an ineligible plugin's record goes to the inactive map. -/
def initOneBody (disabled : Option String) (p : Plugin) (plugKey : String)
    (rec : Option PluginConfigRec) (st : State) : Act :=
  if st.pluginTesting || (match rec with
                          | some r => r.active
                          | none => false) then
    if (match disabled with
        | some d => p.className == d
        | none => false) then
      if st.pluginTesting then
        .ok { st with
          integrationPluginsInactive :=
            dictSet st.integrationPluginsInactive plugKey rec }
      else
        match rec with
        | none =>
          -- `plugin_db_setting.active = False` on `None`
          .err (.genericError "NoneType has no attribute active") st
        | some r =>
          let r' := { r with active := false }
          .ok { st with
            db := dbSave r' st.db
            pluginErrors := st.pluginErrors ++ [(plugKey, "Disabled")]
            integrationPluginsInactive :=
              dictSet st.integrationPluginsInactive plugKey (some r') }
    else
      if p.instFails then .err (.genericError "instantiation") st
      else
        let inst : ActivePlugin :=
          { slug := instanceSlug p
            isPackage := p.isPackage
            pk := rec.map (·.pk)
            base := p }
        .ok { st with
          integrationPlugins :=
            dictSet st.integrationPlugins inst.slug inst }
  else
    .ok { st with
      integrationPluginsInactive :=
        dictSet st.integrationPluginsInactive plugKey rec }

/-- One iteration of the `for plugin in load_integration_plugins()` loop of
`_init_plugins` (apps.py 151–200): compute the registration key, resolve the
persisted record — the transient store error is re-raised outside test
configuration and otherwise replaced by a `None` record — then run the rest of
the body. -/
def initOne (disabled : Option String) (p : Plugin) (st0 : State) : Act :=
  let plugName := p.pluginName
  let plugKey := slugify (p.pluginSlug.getD plugName)
  match getOrCreate plugKey plugName st0 with
  | .ok r st => initOneBody disabled p plugKey (some r) st
  | .err .dbError st =>
    if st.pluginTesting then initOneBody disabled p plugKey none st
    else .err .dbError st
  | .err e st => .err e st

/-- The `for` loop of `_init_plugins` over the discovered plugins. -/
def initLoop (disabled : Option String) : List Plugin → State → Act
  | [], st => .ok st
  | p :: rest, st =>
    match initOne disabled p st with
    | .ok st' => initLoop disabled rest st'
    | .err e st' => .err e st'

/-- `_init_plugins(disabled)`: iterate over the collected plugins
(`load_integration_plugins()` re-delivers `settings.PLUGINS`). -/
def initPlugins (disabled : Option String) (st : State) : Act :=
  initLoop disabled st.plugins st

/-! ## Settings binder (apps.py 223–249) -/

/-- The `for slug, plugin in plugins` loop of
`activate_integration_globalsettings`: for every plugin declaring the settings
capability, track its option set under its slug and merge the options into the
global settings catalog. -/
def gsLoop : List (String × ActivePlugin) → State → State
  | [], st => st
  | kv :: rest, st =>
    if kv.2.base.hasSettings then
      gsLoop rest
        { st with
          integrationPluginGlobalSetting :=
            dictSet st.integrationPluginGlobalSetting kv.1
              kv.2.base.settingsKeys
          globalSettings := addKeys st.globalSettings kv.2.base.settingsKeys }
    else gsLoop rest st

/-- `activate_integration_globalsettings` (apps.py 223–234): gated by
`PLUGIN_TESTING` or the `ENABLE_PLUGINS_GLOBALSETTING` toggle (the
`InvenTreeSetting` collaborator is modelled as the state field
`enableGlobalSettings`). -/
def activateGlobalSettings (plugins : List (String × ActivePlugin))
    (st : State) : State :=
  if st.pluginTesting || st.enableGlobalSettings then gsLoop plugins st
  else st

/-- The union of all tracked plugin option sets, built exactly as
`deactivate_integration_globalsettings` builds `plugin_settings` (dict update
over `settings.INTEGRATION_PLUGIN_GLOBALSETTING.items()`). -/
def trackedUnion (st : State) : List String :=
  st.integrationPluginGlobalSetting.foldl (fun acc kv => addKeys acc kv.2) []

/-- Sequentially `pop` each key (no default): stops at the first missing key,
returning it, together with the catalog as mutated so far. -/
def popKeys : List String → List String → Option String × List String
  | [], gs => (none, gs)
  | k :: rest, gs => if k ∈ gs then popKeys rest (gs.erase k) else (some k, gs)

/-- `deactivate_integration_globalsettings` (apps.py 236–249): pop every key of
the union of tracked option sets from the global settings catalog (raising
`KeyError` on a missing key), then clear the tracking map. -/
def deactivateGlobalSettings (st : State) : Act :=
  match popKeys (trackedUnion st) st.globalSettings with
  | (some k, gs') => .err (.keyError k) { st with globalSettings := gs' }
  | (none, gs') =>
    .ok { st with
      globalSettings := gs'
      integrationPluginGlobalSetting := [] }

/-! ## Host registry collaborator and `_try_reload` (apps.py 398–422) -/

/-- A faulting installed app, if any: the first entry of `INSTALLED_APPS`
whose import raises, with the traceback filename and message of its
exception. -/
def findFault (faults : List (String × (List String × String))) :
    List String → Option (List String × String)
  | [] => none
  | a :: rest =>
    match alookup a faults with
    | some f => some f
    | none => findFault faults rest

/-- Modelled from the spec: the host registry hot-swap primitive
(`apps.populate` / `apps.set_installed_apps`, §6 "Host registry collaborator")
— re-applies the current module list, importing each installed app; an app
whose import raises makes the primitive raise (its originating stack frame
recorded in `appFaults`); on success the app-configuration registry is rebuilt
from the module list. -/
def hotSwap (st : State) : HotRes :=
  match findFault st.appFaults st.installedApps with
  | some (tb, msg) => .fail tb msg st
  | none =>
    .ok { st with
      appConfigs := st.installedApps.filterMap fun a =>
        alookup a st.availableApps }

/-- `_try_reload` (apps.py 410–422): run the command; on an exception, take the
filename of the last traceback frame, relativize it against the installed
package root (`sysconfig.get_paths()["purelib"]`) — `relative_to` raising
`ValueError` when the frame is outside that root, `parts[0]` raising
`IndexError` on an empty relative path — and raise
`PluginLoadingError(package_name, str(error))`. -/
def tryReload (cmd : State → HotRes) (st : State) : Act :=
  match cmd st with
  | .ok st' => .ok st'
  | .fail tb msg st' =>
    if prefixOfL st'.purelib tb then
      match tb.drop st'.purelib.length with
      | [] => .err .indexError st'
      | name :: _ => .err (.pluginLoadingError name msg) st'
    else .err .valueError st'

/-- `_reload_apps` (apps.py 398–408): on `force_reload`, wipe the app registry
(`apps.app_configs = OrderedDict()`, readiness flags reset) and `populate`;
then always `set_installed_apps` under the `INTEGRATION_PLUGINS_RELOADING`
flag (left set if the hot-swap raises, as in the source). -/
def reloadApps (force : Bool) (st0 : State) : Act :=
  let s1 : Act :=
    if force then tryReload hotSwap { st0 with appConfigs := [] }
    else .ok st0
  match s1 with
  | .err e st => .err e st
  | .ok st1 =>
    match tryReload hotSwap
        { st1 with integrationPluginsReloading := true } with
    | .err e st => .err e st
    | .ok st2 => .ok { st2 with integrationPluginsReloading := false }

/-! ## `_reregister_contrib_apps` (apps.py 288–318) -/

/-- `apps.get_app_config(app_name)`: `LookupError` is modelled as `none`. -/
def findCfg (st : State) (name : String) : Option AppConfigRec :=
  st.appConfigs.find? fun c => c.label = name

/-- `admin.site.register` side effects of re-importing the admin module:
register every model of the app that is not yet registered. -/
def addAll (site : List String) (ms : List String) : List String :=
  ms.foldl (fun a m => if m ∈ a then a else a ++ [m]) site

/-- The `for plugin_path in settings.INTEGRATION_APPS_PATHS` loop of
`_reregister_contrib_apps`: a `LookupError` from `get_app_config` breaks out of
the whole loop; otherwise, if the models submodule was imported but reports
zero registered models, re-execute it (re-registering its declared models —
modelled from the spec, §4.4(a)); if some model is missing from the admin
catalog and the app has an admin submodule, re-execute that (§4.4(b)). -/
def reregLoop : List String → State → State
  | [], st => st
  | path :: rest, st =>
    match findCfg st (lastComponent path) with
    | none => st
    | some cfg =>
      let reloadModels := cfg.modelsModuleSet && cfg.models.length == 0
      let cfg1 := if reloadModels then { cfg with models := cfg.declaredModels }
                  else cfg
      let st1 :=
        if reloadModels then
          { st with
            appConfigs := st.appConfigs.map fun c =>
              if c.label = cfg.label then cfg1 else c
            allModels := dictSet st.allModels cfg.label cfg.declaredModels }
        else st
      let st2 :=
        if (cfg1.models.any fun m => !(st1.adminSite.contains m))
            && cfg1.hasAdminModule then
          { st1 with adminSite := addAll st1.adminSite cfg1.models }
        else st1
      reregLoop rest st2

/-! ## `_update_urls` (apps.py 386–396)

The route table collaborator: the admin and plugin sentinel entries are
replaced by freshly built sub-tables and the URL caches cleared; modelled as a
rebuild counter since no other part of the loader reads the table. -/

/-- `_update_urls`. -/
def updateUrls (st : State) : State :=
  { st with urlRebuilds := st.urlRebuilds + 1 }

/-! ## Module binder `activate_integration_app` (apps.py 253–286) -/

/-- The `for slug, plugin in plugins` loop: append the plugin path of every
app-capability plugin that is not already an installed app to both
`INSTALLED_APPS` and `INTEGRATION_APPS_PATHS`, flagging a change. -/
def addAppsLoop : List (String × ActivePlugin) → State → Bool → State × Bool
  | [], st, changed => (st, changed)
  | kv :: rest, st, changed =>
    if kv.2.base.hasApp then
      if pluginPath st.baseDir kv.2.base ∈ st.installedApps then
        addAppsLoop rest st changed
      else
        addAppsLoop rest
          { st with
            installedApps :=
              st.installedApps ++ [pluginPath st.baseDir kv.2.base]
            integrationAppsPaths :=
              st.integrationAppsPaths ++ [pluginPath st.baseDir kv.2.base] }
          true
    else addAppsLoop rest st changed

/-- The tail of `activate_integration_app` after a registry change: the
(unconditional) incremental hot-swap, the contrib-app re-synchronisation and
the route-table rebuild (apps.py 282–286). -/
def appSyncTail (st2 : State) : Act :=
  match reloadApps false st2 with
  | .err e st => .err e st
  | .ok st3 => .ok (updateUrls (reregLoop st3.integrationAppsPaths st3))

/-- `activate_integration_app(plugins, force_reload)`: gated by
`PLUGIN_TESTING` or the `ENABLE_PLUGINS_APP` toggle; add new plugin apps, and
if anything changed or a reload is forced, reload the app registry (a full
wipe-and-populate on first startup or forced reload, then the incremental
hot-swap), re-synchronize contrib apps and rebuild the route table. -/
def activateIntegrationApp (plugins : List (String × ActivePlugin))
    (force : Bool) (st : State) : Act :=
  if st.pluginTesting || st.enableApp then
    match addAppsLoop plugins st false with
    | (st1, changed) =>
      if changed || force then
        match (if st1.integrationAppsLoading || force then
                 reloadApps true { st1 with integrationAppsLoading := false }
               else Act.ok st1) with
        | .err e st => .err e st
        | .ok st2 => appSyncTail st2
      else .ok st1
  else .ok st

/-- `_activate_plugins(force_reload)` (apps.py 202–213): run both capability
binders over the current active registry. -/
def activatePlugins (force : Bool) (st : State) : Act :=
  let plugins := st.integrationPlugins
  activateIntegrationApp plugins force (activateGlobalSettings plugins st)

/-! ## Deactivation (apps.py 215–218, 334–384) -/

/-- `_clean_registry` (apps.py 381–384). -/
def cleanRegistry (st : State) : State :=
  { st with integrationPlugins := [], integrationPluginsInactive := [] }

/-- `_clean_installed_apps` (apps.py 374–379): remove every tracked plugin path
from `INSTALLED_APPS` (`list.remove` drops the first occurrence, guarded by a
membership test), then reset the tracking list. -/
def cleanInstalledApps (st : State) : State :=
  { st with
    installedApps :=
      st.integrationAppsPaths.foldl
        (fun apps p => if p ∈ apps then apps.erase p else apps)
        st.installedApps
    integrationAppsPaths := [] }

/-- Result of one iteration of the `deactivate_integration_app` loop:
continue, `break` (a `LookupError` from `get_app_config`), or an uncaught
exception. -/
inductive DRes where
  | cont (st : State)
  | brk (st : State)
  | err (e : PyError) (st : State)
deriving DecidableEq, Repr

/-- `admin.site.unregister` over the app's models in order: stops at the first
model that is not registered (raising `NotRegistered`), returning the admin
catalog as mutated so far. -/
def unregModels : List String → List String → Option String × List String
  | [], site => (none, site)
  | m :: rest, site =>
    if m ∈ site then unregModels rest (site.erase m) else (some m, site)

/-- Pop each collected model name from the app's entry of `apps.all_models`
(`dict.pop` with no default: `KeyError` on a missing name). -/
def popModelsFrom : List String → List String → Option String × List String
  | [], entry => (none, entry)
  | m :: rest, entry =>
    if m ∈ entry then popModelsFrom rest (entry.erase m) else (some m, entry)

/-- One iteration of the `for plugin_path in settings.INTEGRATION_APPS_PATHS`
loop of `deactivate_integration_app` (apps.py 337–362): look up the app config
by the last path component (`LookupError` → `break`); unregister each of its
models from the admin site; pop each collected model name from
`apps.all_models[plugin_path]` (a `defaultdict`, so an absent key first gets an
empty entry); finally, if any models were collected and the app name is a key
of `all_models`, pop that whole entry. -/
def deactBody (path : String) (st : State) : DRes :=
  let appName := lastComponent path
  match findCfg st appName with
  | none => .brk st
  | some cfg =>
    match unregModels cfg.models st.adminSite with
    | (some m, site') => .err (.notRegistered m) { st with adminSite := site' }
    | (none, site') =>
      let st1 := { st with adminSite := site' }
      let models := cfg.models
      let st2 :=
        if path ∈ dictKeys st1.allModels then st1
        else { st1 with allModels := st1.allModels ++ [(path, [])] }
      let entry := (alookup path st2.allModels).getD []
      match popModelsFrom models entry with
      | (some m, entry') =>
        .err (.keyError m) { st2 with allModels := dictSet st2.allModels path entry' }
      | (none, entry') =>
        let st3 := { st2 with allModels := dictSet st2.allModels path entry' }
        if models ≠ [] ∧ appName ∈ dictKeys st3.allModels then
          .cont { st3 with
            allModels := st3.allModels.filter fun kv => kv.1 != appName }
        else .cont st3

/-- The `deactivate_integration_app` loop over tracked plugin paths. -/
def deactLoop : List String → State → Act
  | [], st => .ok st
  | p :: rest, st =>
    match deactBody p st with
    | .cont st' => deactLoop rest st'
    | .brk st' => .ok st'
    | .err e st' => .err e st'

/-- `deactivate_integration_app` (apps.py 334–372): run the unregister loop,
remove plugin apps from the installed list, reset the "ever loaded" flag,
reload (non-full), and rebuild the route table. -/
def deactivateIntegrationApp (st : State) : Act :=
  match deactLoop st.integrationAppsPaths st with
  | .err e st' => .err e st'
  | .ok st1 =>
    let st2 :=
      { (cleanInstalledApps st1) with integrationAppsLoaded := false }
    match reloadApps false st2 with
    | .err e st' => .err e st'
    | .ok st3 => .ok (updateUrls st3)

/-- `_deactivate_plugins` (apps.py 215–218): app binder first, then settings
binder. -/
def deactivatePlugins (st : State) : Act :=
  match deactivateIntegrationApp st with
  | .err e st' => .err e st'
  | .ok st1 => deactivateGlobalSettings st1

/-! ## Top level: load / unload / reload (apps.py 52–115) -/

/-- One pass of the `while not registered_sucessfull` body:
`_init_plugins(blocked)` then `_activate_plugins()`. -/
def loadPass (blocked : Option String) (st : State) : Act :=
  match initPlugins blocked st with
  | .ok st1 => activatePlugins false st1
  | .err e st' => .err e st'

/-- The `while not registered_sucessfull` loop of `load_plugins` (apps.py
62–83), with fuel bounding the number of passes.  `OperationalError` /
`ProgrammingError` is caught, logged and the pass retried; a
`PluginLoadingError` records the failure, blacklists the offending path, clears
the registry and installed plugin apps, force-reloads the base apps, and
re-enters the loop; any other exception propagates. -/
def loadLoop : Nat → Option String → State → LRes
  | 0, _, st => .noFuel st
  | fuel + 1, blocked, st =>
    match loadPass blocked st with
    | .ok st2 => .ok st2
    | .err .dbError st' => loadLoop fuel blocked st'
    | .err (.pluginLoadingError p m) st' =>
      let stl := { st' with pluginErrors := st'.pluginErrors ++ [(p, m)] }
      match activatePlugins true (cleanInstalledApps (cleanRegistry stl)) with
      | .ok st3 => loadLoop fuel (some p) st3
      | .err e st3 => .err e st3
    | .err e st' => .err e st'

/-- The state `load_plugins` runs its loop in: maintenance mode forced on if it
was off (apps.py 57–60). -/
def loadEntryState (st : State) : State :=
  if !st.maintenance then { st with maintenance := true } else st

/-- `load_plugins` (apps.py 52–88): maintenance gate around the loading loop;
the prior maintenance value is restored only on normal completion (an uncaught
exception skips the restore, as in the source). -/
def loadPlugins (fuel : Nat) (st : State) : LRes :=
  let m := st.maintenance
  match loadLoop fuel none (loadEntryState st) with
  | .ok st2 => .ok (if !m then { st2 with maintenance := false } else st2)
  | .err e st2 => .err e st2
  | .noFuel st2 => .noFuel st2

/-- `unload_plugins` (apps.py 90–107): maintenance gate, clear the registry,
deactivate all integrations, restore maintenance on normal completion. -/
def unloadPlugins (st : State) : Act :=
  let m := st.maintenance
  let st1 := if !m then { st with maintenance := true } else st
  match deactivatePlugins (cleanRegistry st1) with
  | .err e st' => .err e st'
  | .ok st2 => .ok (if !m then { st2 with maintenance := false } else st2)

/-- Modelled from the spec: the `maintenance_mode_on()` context manager
(external `maintenance_mode` package) — §4.2: maintenance mode "is forced on
for the duration … and restored to its prior value on exit".  `reload_plugins`
(apps.py 109–115) runs unload then load inside that scope. -/
def reloadPlugins (fuel : Nat) (st : State) : LRes :=
  let prior := st.maintenance
  match unloadPlugins { st with maintenance := true } with
  | .err e st' => .err e { st' with maintenance := prior }
  | .ok st2 =>
    match loadPlugins fuel st2 with
    | .ok st3 => .ok { st3 with maintenance := prior }
    | .err e st3 => .err e { st3 with maintenance := prior }
    | .noFuel st3 => .noFuel st3

/-! ## Observables -/

/-- The slugs of the active registry, in insertion order. -/
def activeKeys (st : State) : List String := dictKeys st.integrationPlugins

/-- The keys of the inactive registry, in insertion order. -/
def inactiveKeys (st : State) : List String :=
  dictKeys st.integrationPluginsInactive

/-- The state carried by a `GRes`. -/
def GRes.state : GRes → State
  | .ok _ st => st
  | .err _ st => st

/-- The state carried by a `DRes`. -/
def DRes.state : DRes → State
  | .cont st => st
  | .brk st => st
  | .err _ st => st

/-- The exception carried by an `Act`, if any. -/
def Act.error : Act → Option PyError
  | .ok _ => none
  | .err e _ => some e

/-- The exception carried by an `LRes`, if any. -/
def LRes.error : LRes → Option PyError
  | .err e _ => some e
  | _ => none

/-- Remove from `gs` every element of `ks` (membership filter). -/
def removeKeys : List String → List String → List String
  | [], _ => []
  | g :: gs, ks => if g ∈ ks then removeKeys gs ks else g :: removeKeys gs ks

/-- The bookkeeping relation between `INSTALLED_APPS`, the tracking list
`INTEGRATION_APPS_PATHS` and the host's original module list: the installed
list is the original list followed by the tracked plugin paths, which are
pairwise distinct and absent from the original list. -/
def AppsInv (orig : List String) (st : State) : Prop :=
  st.installedApps = orig ++ st.integrationAppsPaths ∧
  st.integrationAppsPaths.Nodup ∧
  ∀ p ∈ st.integrationAppsPaths, p ∉ orig

/-! ## Scenario builders -/

/-- A freshly started process under test configuration: given base installed
apps, the site-packages root, the host base directory, the discovered plugins
and the table of faulting plugin apps. -/
def mkTestState (base purelib baseDir : List String) (ps : List Plugin)
    (faults : List (String × (List String × String))) : State :=
  { pluginTesting := true, enableGlobalSettings := true, enableApp := true,
    baseDir := baseDir, purelib := purelib, plugins := ps,
    integrationPlugins := [], integrationPluginsInactive := [],
    installedApps := base, integrationAppsPaths := [],
    integrationPluginGlobalSetting := [], globalSettings := [],
    integrationAppsLoading := true, integrationAppsLoaded := false,
    integrationPluginsReloading := false, maintenance := false,
    db := [], dbDown := false, nextPk := 0, appFaults := faults,
    availableApps := [], appConfigs := [], adminSite := [], allModels := [],
    pluginErrors := [], urlRebuilds := 0 }

/-- The `PluginConfig` rows `_init_plugins` creates for a fresh plugin list,
with consecutive primary keys starting at `k`. -/
def mkRecs : List Plugin → Nat → List PluginConfigRec
  | [], _ => []
  | p :: rest, k => ⟨k, plugKey p, p.pluginName, false⟩ :: mkRecs rest (k + 1)

/-- The active-registry entry `_init_plugins` builds for plugin `p`. -/
def mkActive (p : Plugin) (pk : Option Nat) : ActivePlugin :=
  ⟨instanceSlug p, p.isPackage, pk, p⟩

/-- The active-registry entries for a fresh plugin list, with consecutive
primary keys starting at `k`. -/
def mkActives : List Plugin → Nat → List (String × ActivePlugin)
  | [], _ => []
  | p :: rest, k => (plugKey p, mkActive p (some k)) :: mkActives rest (k + 1)

/-- The active-registry entries for a plugin list whose rows already exist,
with primary keys given by `pkf`. -/
def activesPk (pkf : Plugin → Nat) (ps : List Plugin) :
    List (String × ActivePlugin) :=
  ps.map fun p => (plugKey p, mkActive p (some (pkf p)))

/-- Whether an `Act` is a raised `KeyError`. -/
def Act.errKeyErr : Act → Bool
  | .err (.keyError _) _ => true
  | _ => false

/-- The state carried by a `HotRes`. -/
def HotRes.state : HotRes → State
  | .ok st => st
  | .fail _ _ st => st

/-- The fields no operation below the top-level load/unload/reload wrappers
ever writes: the static configuration and the maintenance flag. -/
def untouchedOf (s : State) :=
  (s.pluginTesting, s.enableGlobalSettings, s.enableApp, s.baseDir, s.purelib,
   s.plugins, s.maintenance, s.dbDown, s.appFaults, s.availableApps)

/-- The registry and persistence fields, which the capability binders, the
reload supervisor and the deactivation path never write. -/
def regOf (s : State) :=
  (s.integrationPlugins, s.integrationPluginsInactive, s.db, s.nextPk)

/-- The module lists and the first-startup flag, which only the module binder
and `_clean_installed_apps` write. -/
def appsOf (s : State) :=
  (s.installedApps, s.integrationAppsPaths, s.integrationAppsLoading)

/-- `s` agrees with `t` on the static configuration, the maintenance flag and
the registry/persistence fields. -/
def Frames2 (s t : State) : Prop :=
  untouchedOf s = untouchedOf t ∧ regOf s = regOf t

/-- `Frames2` plus agreement on the module lists. -/
def Frames3 (s t : State) : Prop :=
  Frames2 s t ∧ appsOf s = appsOf t

/-! ## Concrete scenarios -/

/-- A demo site-packages root. -/
def demoPurelib : List String := ["usr", "lib", "site-packages"]

/-- A demo host base directory. -/
def demoBaseDir : List String := ["srv", "inventree"]

/-- The host's own installed apps. -/
def demoBase : List String := ["django"]

/-- A packaged plugin whose distribution directory is `AlphaDist`. -/
def plugAlpha : Plugin :=
  { pluginName := "Alpha", pluginSlug := none, className := "AlphaDist",
    isPackage := true, fsPath := ["usr", "lib", "site-packages", "AlphaDist"],
    instFails := false, hasApp := true, hasSettings := false,
    settingsKeys := [] }

/-- A second packaged plugin, distribution directory `BetaDist`. -/
def plugBeta : Plugin :=
  { pluginName := "Beta", pluginSlug := none, className := "BetaDist",
    isPackage := true, fsPath := ["usr", "lib", "site-packages", "BetaDist"],
    instFails := false, hasApp := true, hasSettings := false,
    settingsKeys := [] }

/-- `plugAlpha` with a constructor that raises. -/
def plugAlphaBad : Plugin := { plugAlpha with instFails := true }

/-- The app of `plugAlpha` raises on import, from a frame inside its
distribution directory. -/
def faultAlpha : String × (List String × String) :=
  ("Alpha", (["usr", "lib", "site-packages", "AlphaDist", "apps.py"], "boom"))

/-- The app of `plugBeta` raises on import, from a frame inside its
distribution directory. -/
def faultBeta : String × (List String × String) :=
  ("Beta", (["usr", "lib", "site-packages", "BetaDist", "apps.py"], "crash"))

/-- Two discovered plugins, the first with a raising constructor. -/
def c1CexState : State :=
  mkTestState demoBase demoPurelib demoBaseDir [plugAlphaBad, plugBeta] []

/-- Two discovered plugins whose apps both raise on import, under test
configuration. -/
def c2TestState : State :=
  mkTestState demoBase demoPurelib demoBaseDir [plugAlpha, plugBeta]
    [faultAlpha, faultBeta]

/-- The state reached by the loading loop of `c2TestState` after every
recovery pass, parametrized by the two fields that keep growing (the error log
and the route-rebuild counter): all other fields return to the same values. -/
def c2Cycle (e : List (String × String)) (u : Nat) : State :=
  { mkTestState demoBase demoPurelib demoBaseDir [plugAlpha, plugBeta]
      [faultAlpha, faultBeta] with
    integrationAppsLoading := false, maintenance := true,
    db := [⟨0, "alpha", "Alpha", false⟩, ⟨1, "beta", "Beta", false⟩],
    nextPk := 2, pluginErrors := e, urlRebuilds := u }

/-- The same two faulting plugins outside test configuration, with reachable
persistence and both rows enabled. -/
def c2ProdState : State :=
  { c2TestState with
    pluginTesting := false,
    db := [⟨0, "alpha", "Alpha", true⟩, ⟨1, "beta", "Beta", true⟩],
    nextPk := 2 }

/-- One plugin, persistence not yet provisioned, test mode off. -/
def c3DownState : State :=
  { mkTestState demoBase demoPurelib demoBaseDir [plugAlpha] [] with
    pluginTesting := false, dbDown := true }

/-- One plugin, persistence not yet provisioned, under test configuration. -/
def c3TestState : State :=
  { mkTestState demoBase demoPurelib demoBaseDir [plugAlpha] [] with
    dbDown := true }

/-- A plugin named `Foo Bar` (slug `foo-bar`), no capabilities. -/
def plugFooBar : Plugin :=
  { pluginName := "Foo Bar", pluginSlug := none, className := "FooBarA",
    isPackage := true, fsPath := ["usr", "lib", "site-packages", "FooBarA"],
    instFails := false, hasApp := false, hasSettings := false,
    settingsKeys := [] }

/-- A second plugin named `foo-bar` — the same slug, a different name. -/
def plugFooBar2 : Plugin :=
  { pluginName := "foo-bar", pluginSlug := none, className := "FooBarB",
    isPackage := true, fsPath := ["usr", "lib", "site-packages", "FooBarB"],
    instFails := false, hasApp := false, hasSettings := false,
    settingsKeys := [] }

/-- An idle state with no discovered plugins. -/
def c5State : State := mkTestState demoBase demoPurelib demoBaseDir [] []

/-- One clean plugin to load and unload. -/
def c6State : State :=
  mkTestState demoBase demoPurelib demoBaseDir [plugAlpha] []

/-- An active-registry view with one app-capability plugin. -/
def c7Plugins : List (String × ActivePlugin) :=
  [("alpha", mkActive plugAlpha none)]

/-- An installed app that raises on import from a frame outside the
site-packages root (a local plugin under the host base directory). -/
def c8CexState : State :=
  mkTestState ["django", "plugins.local"] demoPurelib demoBaseDir []
    [("plugins.local", (["srv", "inventree", "plugins", "local", "apps.py"],
      "boom"))]

/-- A deactivation state: the first tracked path has no app configuration, the
second one is fully registered. -/
def c9State : State :=
  { mkTestState demoBase demoPurelib demoBaseDir [] [] with
    appConfigs := [⟨"realapp", ["widget"], ["widget"], true, true⟩],
    adminSite := ["widget"],
    allModels := [("realapp", ["widget"])] }

/-- Two tracked plugin option sets sharing the key `K2`, all keys present in
the global settings catalog. -/
def c10AllState : State :=
  { mkTestState demoBase demoPurelib demoBaseDir [] [] with
    integrationPluginGlobalSetting :=
      [("alpha", ["K1", "K2"]), ("beta", ["K2", "K3"])],
    globalSettings := ["K0", "K1", "K2", "K3"] }

/-- The same tracked option sets, but `K2` and `K3` are missing from the
catalog. -/
def c10MissState : State :=
  { c10AllState with globalSettings := ["K0", "K1"] }

/-- One faulting plugin to drive the blacklist transition. -/
def c8LoopState : State :=
  mkTestState demoBase demoPurelib demoBaseDir [plugAlpha] [faultAlpha]

/-- `plugAlpha`'s app is already installed and raises on import from a frame
below the site-packages root. -/
def c8WitState : State :=
  mkTestState ["Alpha"] demoPurelib demoBaseDir [] [faultAlpha]

/-- The state at the point the first pass over `c8LoopState` raises its
`PluginLoadingError`. -/
def c8Sp2 : State := (loadPass none (loadEntryState c8LoopState)).state

/-- The state after the `BLOCKED` recovery of that error. -/
def c8Sp3 : State :=
  (activatePlugins true (cleanInstalledApps (cleanRegistry
    { c8Sp2 with
      pluginErrors := c8Sp2.pluginErrors ++ [("AlphaDist", "boom")] }))).state

/-- Two plugins slugifying to the same key (`"Foo Bar"` and `"foo-bar"`). -/
def c4State : State :=
  mkTestState demoBase demoPurelib demoBaseDir [plugFooBar, plugFooBar2] []

/-! ## Re-initialisation views (used to characterise the second loading pass) -/

/-- The persisted record the `get_or_create` lookup of `_init_plugins` finds
for plugin `p` in store `db` (match on registration key and name). -/
def dbRecFor (db : List PluginConfigRec) (p : Plugin) :
    Option PluginConfigRec :=
  db.find? fun r =>
    r.key = slugify (p.pluginSlug.getD p.pluginName) && r.name = p.pluginName

/-- The active-registry entries a re-run of `_init_plugins` builds over store
`db` with blacklisted distribution `d`: one entry per non-blacklisted plugin,
carrying the primary key of its persisted record. -/
def pass2Actives (db : List PluginConfigRec) (d : String) :
    List Plugin → List (String × ActivePlugin)
  | [] => []
  | p :: rest =>
    if p.className = d then pass2Actives db d rest
    else (plugKey p, mkActive p ((dbRecFor db p).map (·.pk))) ::
      pass2Actives db d rest

/-- The inactive-map entries of that re-run: one entry per blacklisted plugin,
carrying its persisted record. -/
def pass2Inactive (db : List PluginConfigRec) (d : String) :
    List Plugin → List (String × Option PluginConfigRec)
  | [] => []
  | p :: rest =>
    if p.className = d then
      (plugKey p, dbRecFor db p) :: pass2Inactive db d rest
    else pass2Inactive db d rest

/-! # Theorems -/

/-! ## Generic list lemmas -/

theorem removeKeys_not_mem : ∀ (l : List String) (k : String)
    (rest : List String), k ∉ l →
    removeKeys l (k :: rest) = removeKeys l rest
  | [], _, _, _ => rfl
  | g :: gs, k, rest, h => by
    have hg : g ≠ k := fun e => h (e ▸ List.mem_cons_self g gs)
    have h' : k ∉ gs := fun hk => h (List.mem_cons_of_mem _ hk)
    simp only [removeKeys, List.mem_cons, hg, false_or]
    by_cases hgr : g ∈ rest
    · simp only [hgr, if_true, removeKeys_not_mem gs k rest h']
    · simp only [hgr, if_false, removeKeys_not_mem gs k rest h']

theorem removeKeys_erase : ∀ (l : List String) (k : String)
    (rest : List String), l.Nodup → k ∈ l →
    removeKeys (l.erase k) rest = removeKeys l (k :: rest)
  | [], _, _, _, hk => absurd hk (List.not_mem_nil _)
  | g :: gs, k, rest, hnd, hk => by
    rcases List.mem_cons.mp hk with rfl | hk'
    · rw [List.erase_cons_head]
      have hkgs : k ∉ gs := (List.nodup_cons.mp hnd).1
      simp only [removeKeys, List.mem_cons, true_or, if_true]
      rw [removeKeys_not_mem gs k rest hkgs]
    · have hg : g ≠ k := by
        rintro rfl
        exact (List.nodup_cons.mp hnd).1 hk'
      rw [List.erase_cons_tail (by simpa using hg)]
      simp only [removeKeys, List.mem_cons, hg, false_or]
      rw [removeKeys_erase gs k rest (List.nodup_cons.mp hnd).2 hk']

theorem removeKeys_nil_keys : ∀ gs : List String, removeKeys gs [] = gs
  | [] => rfl
  | g :: gs => by simp [removeKeys, removeKeys_nil_keys gs]

theorem popKeys_all_present : ∀ (ks gs : List String), gs.Nodup → ks.Nodup →
    (∀ k ∈ ks, k ∈ gs) →
    popKeys ks gs = (none, removeKeys gs ks)
  | [], gs, _, _, _ => by
    simp only [popKeys]
    rw [removeKeys_nil_keys gs]
  | k :: rest, gs, hnd, hknd, hall => by
    have hk : k ∈ gs := hall k (List.mem_cons_self k rest)
    have hkrest : k ∉ rest := (List.nodup_cons.mp hknd).1
    simp only [popKeys, hk, if_true]
    rw [popKeys_all_present rest (gs.erase k)
      (List.Nodup.erase k hnd)
      (List.nodup_cons.mp hknd).2
      (fun q hq => by
        have hq' : q ∈ gs := hall q (List.mem_cons_of_mem _ hq)
        have hqk : q ≠ k := fun e => hkrest (e ▸ hq)
        exact (List.mem_erase_of_ne hqk).mpr hq')]
    rw [removeKeys_erase gs k rest hnd hk]

theorem popKeys_missing : ∀ (ks gs : List String),
    (∃ k ∈ ks, k ∉ gs) → (popKeys ks gs).1.isSome = true
  | [], _, h => by
    rcases h with ⟨k, hk, _⟩
    exact absurd hk (List.not_mem_nil k)
  | k :: rest, gs, h => by
    by_cases hk : k ∈ gs
    · simp only [popKeys, hk, if_true]
      rcases h with ⟨q, hq, hqgs⟩
      rcases List.mem_cons.mp hq with rfl | hq'
      · exact absurd hk hqgs
      · exact popKeys_missing rest (gs.erase k)
          ⟨q, hq', fun hmem => hqgs (List.mem_of_mem_erase hmem)⟩
    · simp [popKeys, hk]

theorem addKeys_nodup : ∀ (ks acc : List String), acc.Nodup →
    (addKeys acc ks).Nodup
  | [], _, h => h
  | k :: rest, acc, h => by
    simp only [addKeys, List.foldl_cons]
    by_cases hk : k ∈ acc
    · simpa only [addKeys, hk, if_true] using addKeys_nodup rest acc h
    · have : (acc ++ [k]).Nodup := by
        simp [List.nodup_append, h, hk]
      simpa only [addKeys, hk, if_false] using addKeys_nodup rest (acc ++ [k]) this

theorem trackedUnion_nodup (st : State) : (trackedUnion st).Nodup := by
  unfold trackedUnion
  have h : ∀ (l : List (String × List String)) (acc : List String), acc.Nodup →
      (l.foldl (fun a kv => addKeys a kv.2) acc).Nodup := by
    intro l
    induction l with
    | nil => intro acc ha; exact ha
    | cons kv rest ih =>
      intro acc ha
      simp only [List.foldl_cons]
      exact ih _ (addKeys_nodup kv.2 acc ha)
  exact h st.integrationPluginGlobalSetting [] List.nodup_nil

/-! ## C10 — settings deactivation -/

/-- C10: `deactivate_integration_globalsettings` pops each key of the union of
all tracked plugin option sets from the global settings catalog with no
default.  The union is deduplicated (keys shared by several plugins appear
once); when every tracked key is present in the catalog, the call returns
normally, removes exactly those keys once each and resets the tracking map to
empty; when some tracked key is missing, a `KeyError` is raised. -/
theorem C10_deactivate_globalsettings (st : State)
    (hnd : st.globalSettings.Nodup) :
    (trackedUnion st).Nodup ∧
    ((∀ k ∈ trackedUnion st, k ∈ st.globalSettings) →
      deactivateGlobalSettings st = Act.ok
        { st with
          globalSettings := removeKeys st.globalSettings (trackedUnion st),
          integrationPluginGlobalSetting := [] }) ∧
    ((∃ k ∈ trackedUnion st, k ∉ st.globalSettings) →
      (deactivateGlobalSettings st).errKeyErr = true) := by
  refine ⟨trackedUnion_nodup st, ?_, ?_⟩
  · intro hall
    unfold deactivateGlobalSettings
    rw [popKeys_all_present _ _ hnd (trackedUnion_nodup st) hall]
  · intro hmiss
    have hsome := popKeys_missing _ _ hmiss
    unfold deactivateGlobalSettings
    cases hp : popKeys (trackedUnion st) st.globalSettings with
    | mk o gs' =>
      rw [hp] at hsome
      cases o with
      | none => simp at hsome
      | some k => simp [Act.errKeyErr]

/-- Witness for C10: both branches at concrete states — all keys present
(`K2` shared between two plugins, removed once), and two keys missing. -/
theorem C10_witness :
    (deactivateGlobalSettings c10AllState = Act.ok
      { c10AllState with
        globalSettings :=
          removeKeys c10AllState.globalSettings (trackedUnion c10AllState),
        integrationPluginGlobalSetting := [] }) ∧
    (deactivateGlobalSettings c10MissState).errKeyErr = true :=
  ⟨(C10_deactivate_globalsettings c10AllState (by decide)).2.1 (by decide),
   (C10_deactivate_globalsettings c10MissState (by decide)).2.2 (by decide)⟩

/-! ## C9 — LookupError breaks the deactivation loops -/

/-- C9: a `LookupError` when looking up the app configuration of a tracked
plugin path makes both the `deactivate_integration_app` loop and the
`_reregister_contrib_apps` loop break out entirely rather than continue: every
tracked path after the failing one is skipped, and the admin catalog and the
global model registry are left exactly as they were. -/
theorem C9_lookup_breaks_loop (st : State) (path : String) (rest : List String)
    (h : findCfg st (lastComponent path) = none) :
    deactLoop (path :: rest) st = Act.ok st ∧
    reregLoop (path :: rest) st = st ∧
    (deactLoop (path :: rest) st).state.adminSite = st.adminSite ∧
    (deactLoop (path :: rest) st).state.allModels = st.allModels := by
  have hd : deactLoop (path :: rest) st = Act.ok st := by
    simp only [deactLoop, deactBody, h]
  have hr : reregLoop (path :: rest) st = st := by
    simp only [reregLoop, h]
  exact ⟨hd, hr, by rw [hd]; rfl, by rw [hd]; rfl⟩

/-- Witness for C9: the first tracked path has no app configuration while the
second one is fully registered; the loop stops and `realapp`'s model stays in
the admin catalog and the model registry. -/
theorem C9_witness :
    deactLoop ["ghostapp", "realapp"] c9State = Act.ok c9State ∧
    reregLoop ["ghostapp", "realapp"] c9State = c9State ∧
    (deactLoop ["ghostapp", "realapp"] c9State).state.adminSite =
      c9State.adminSite ∧
    (deactLoop ["ghostapp", "realapp"] c9State).state.allModels =
      c9State.allModels :=
  C9_lookup_breaks_loop c9State "ghostapp" ["realapp"] (by decide)

/-! ## C8 — hot-swap error attribution -/

theorem prefixOfL_append : ∀ xs ys : List String, prefixOfL xs (xs ++ ys) = true
  | [], _ => rfl
  | x :: xs, ys => by
    simp only [List.cons_append, prefixOfL, if_pos rfl]
    exact prefixOfL_append xs ys

/-- C8 counterexample: an exception raised by the hot-swap primitive from a
stack frame outside the installed-package root (here a local plugin under the
host base directory) is NOT re-raised as a `PluginLoadingError`: the
relativization in the handler of `_try_reload` itself raises `ValueError`,
which `load_plugins` does not catch. -/
theorem C8_cex :
    tryReload hotSwap c8CexState = Act.err PyError.valueError c8CexState := by
  decide

/-- C8 (amended): an exception raised by the hot-swap primitive whose
originating stack frame lies strictly below the installed-package root is
caught by `_try_reload` and re-raised as a `PluginLoadingError` whose path is
the first component of the frame filename relativized to that root (the
failing distribution package); this error drives the `BLOCKED` transition of
`load_plugins` — the registry is cleared, plugin apps removed, base apps
force-reloaded, and the loop re-entered with the path blacklisted.  A frame
outside the root instead makes the conversion itself raise `ValueError`, so no
structured error is produced. -/
theorem C8_structured_error
    (cmd cmd2 : State → HotRes) (st stf s s2f : State)
    (name msg msg2 : String) (tbRest tb2 : List String)
    (fuel : Nat) (blocked : Option String) (sp sp2 sp3 : State) (p pm : String)
    (hc : cmd st = HotRes.fail (stf.purelib ++ name :: tbRest) msg stf)
    (hc2 : cmd2 s = HotRes.fail tb2 msg2 s2f)
    (hpre : prefixOfL s2f.purelib tb2 = false)
    (hpass : loadPass blocked sp = Act.err (.pluginLoadingError p pm) sp2)
    (hrec : activatePlugins true (cleanInstalledApps (cleanRegistry
      { sp2 with pluginErrors := sp2.pluginErrors ++ [(p, pm)] })) =
        Act.ok sp3) :
    tryReload cmd st = Act.err (.pluginLoadingError name msg) stf ∧
    tryReload cmd2 s = Act.err PyError.valueError s2f ∧
    loadLoop (fuel + 1) blocked sp = loadLoop fuel (some p) sp3 := by
  refine ⟨?_, ?_, ?_⟩
  · simp only [tryReload, hc, prefixOfL_append, if_true, List.drop_left]
  · simp [tryReload, hc2, hpre]
  · simp only [loadLoop, hpass, hrec]

/-! ## Characterising one `_init_plugins` iteration -/

/-- Under test configuration with a reachable store, a fresh key, a clean
constructor and no blacklist match, one `_init_plugins` iteration creates the
row and inserts the instantiated plugin into the active registry. -/
theorem initOne_fresh (d : Option String) (p : Plugin) (st : State)
    (htest : st.pluginTesting = true) (hdown : st.dbDown = false)
    (hfresh : ∀ r ∈ st.db, r.key ≠ plugKey p)
    (hinst : p.instFails = false)
    (hnoblock : (match d with
                 | some dd => p.className == dd
                 | none => false) = false) :
    initOne d p st = Act.ok
      { st with
        integrationPlugins :=
          dictSet st.integrationPlugins (instanceSlug p)
            (mkActive p (some st.nextPk)),
        db := st.db ++ [⟨st.nextPk, plugKey p, p.pluginName, false⟩],
        nextPk := st.nextPk + 1 } := by
  have hfind : st.db.find?
      (fun r => r.key = slugify (p.pluginSlug.getD p.pluginName) &&
        r.name = p.pluginName) = none := by
    rw [List.find?_eq_none]
    intro r hr
    simp only [Bool.and_eq_true, decide_eq_true_eq, not_and]
    intro hk
    exact absurd hk (hfresh r hr)
  have hany : st.db.any
      (fun r => decide (r.key = slugify (p.pluginSlug.getD p.pluginName))) =
        false := by
    rw [List.any_eq_false]
    intro r hr
    simp only [decide_eq_true_eq]
    exact hfresh r hr
  simp only [initOne, getOrCreate, hdown, Bool.false_eq_true, if_false,
    hfind, hany, initOneBody, htest, Bool.true_or, if_true, hnoblock,
    Bool.false_eq_true, hinst, mkActive, instanceSlug, plugKey,
    Option.map_some']

/-- When the store holds a row with the plugin's key but a different name,
`get_or_create` violates the unique constraint: one `_init_plugins` iteration
raises `IntegrityError`, leaving the state untouched. -/
theorem initOne_collision (d : Option String) (p : Plugin) (st : State)
    (hdown : st.dbDown = false)
    (hexists : ∃ r ∈ st.db, r.key = plugKey p)
    (hnoname : ∀ r ∈ st.db, r.key = plugKey p → r.name ≠ p.pluginName) :
    initOne d p st = Act.err PyError.integrityError st := by
  have hfind : st.db.find?
      (fun r => r.key = slugify (p.pluginSlug.getD p.pluginName) &&
        r.name = p.pluginName) = none := by
    rw [List.find?_eq_none]
    intro r hr
    simp only [Bool.and_eq_true, decide_eq_true_eq, not_and]
    intro hk
    exact hnoname r hr hk
  have hany : st.db.any
      (fun r => decide (r.key = slugify (p.pluginSlug.getD p.pluginName))) =
        true := by
    rw [List.any_eq_true]
    obtain ⟨r, hr, hk⟩ := hexists
    exact ⟨r, hr, by simpa [plugKey] using hk⟩
  simp only [initOne, getOrCreate, hdown, Bool.false_eq_true, if_false,
    hfind, hany, if_true]

/-! ## C4 — slug collisions -/

theorem loadEntryState_fields (st : State) :
    (loadEntryState st).dbDown = st.dbDown ∧
    (loadEntryState st).pluginTesting = st.pluginTesting ∧
    (loadEntryState st).plugins = st.plugins ∧
    (loadEntryState st).db = st.db ∧
    (loadEntryState st).integrationPlugins = st.integrationPlugins ∧
    (loadEntryState st).nextPk = st.nextPk := by
  unfold loadEntryState
  by_cases h : st.maintenance <;> simp [h]

/-- The collision computation shared by both conclusions of C4. -/
theorem initPlugins_collision (st : State) (p1 p2 : Plugin)
    (hplugs : st.plugins = [p1, p2])
    (htest : st.pluginTesting = true) (hdown : st.dbDown = false)
    (hdb : st.db = []) (hinst : p1.instFails = false)
    (hkey : plugKey p1 = plugKey p2)
    (hname : p1.pluginName ≠ p2.pluginName) :
    ∃ stx, initPlugins none st = Act.err PyError.integrityError stx ∧
      (stx.db.filter fun r => r.key == plugKey p2).length = 1 := by
  have h1 := initOne_fresh none p1 st htest hdown
    (by rw [hdb]; intro r hr; exact absurd hr (List.not_mem_nil r))
    hinst rfl
  set st1 : State :=
    { st with
      integrationPlugins :=
        dictSet st.integrationPlugins (instanceSlug p1)
          (mkActive p1 (some st.nextPk)),
      db := st.db ++ [⟨st.nextPk, plugKey p1, p1.pluginName, false⟩],
      nextPk := st.nextPk + 1 } with hst1
  have hdb1 : st1.db = [⟨st.nextPk, plugKey p1, p1.pluginName, false⟩] := by
    rw [hst1, hdb]
    rfl
  have h2 : initOne none p2 st1 = Act.err PyError.integrityError st1 :=
    initOne_collision none p2 st1 (by rw [hst1]; exact hdown)
      (⟨⟨st.nextPk, plugKey p1, p1.pluginName, false⟩,
        by rw [hdb1]; exact List.mem_singleton.mpr rfl, hkey⟩)
      (by
        intro r hr _
        rw [hdb1] at hr
        rw [List.mem_singleton.mp hr]
        exact hname)
  refine ⟨st1, ?_, ?_⟩
  · simp only [initPlugins, hplugs, initLoop, h1, h2]
  · rw [hdb1]
    simp [hkey]

/-- C4: two discovered plugins whose identities slugify to the same key are
resolved by get-or-create to exactly one persisted record for that slug, and
the collision surfaces as a configuration error — an `IntegrityError` that
`load_plugins` does not catch — rather than a duplicate record or a silent
overwrite of one plugin by the other. -/
theorem C4_slug_collision (st : State) (p1 p2 : Plugin) (fuel : Nat)
    (hplugs : st.plugins = [p1, p2])
    (htest : st.pluginTesting = true) (hdown : st.dbDown = false)
    (hdb : st.db = []) (hinst : p1.instFails = false)
    (hkey : plugKey p1 = plugKey p2)
    (hname : p1.pluginName ≠ p2.pluginName) :
    (initPlugins none st).error = some PyError.integrityError ∧
    ((initPlugins none st).state.db.filter
      fun r => r.key == plugKey p2).length = 1 ∧
    (loadPlugins (fuel + 1) st).error = some PyError.integrityError := by
  obtain ⟨stx, hx, hcount⟩ := initPlugins_collision st p1 p2 hplugs htest
    hdown hdb hinst hkey hname
  obtain ⟨e1, e2, e3, e4, _, _⟩ := loadEntryState_fields st
  obtain ⟨sty, hy, _⟩ := initPlugins_collision (loadEntryState st) p1 p2
    (e3.trans hplugs) (e2.trans htest) (e1.trans hdown) (e4.trans hdb)
    hinst hkey hname
  refine ⟨?_, ?_, ?_⟩
  · rw [hx]; rfl
  · rw [hx]; exact hcount
  · unfold loadPlugins
    simp only [loadLoop, loadPass, hy]
    rfl

/-- Witness for C4: the spec's own scenario — `"Foo Bar"` and `"foo-bar"`
slugify to the same key `foo-bar`; one record is persisted and the load dies
with `IntegrityError`. -/
theorem C4_witness :
    (initPlugins none c4State).error = some PyError.integrityError ∧
    ((initPlugins none c4State).state.db.filter
      fun r => r.key == plugKey plugFooBar2).length = 1 ∧
    (loadPlugins 1 c4State).error = some PyError.integrityError :=
  C4_slug_collision c4State plugFooBar plugFooBar2 0 (by decide) (by decide)
    (by decide) (by decide) (by decide) (by decide) (by decide)

/-! ## C3 — transient persistence errors -/

theorem initOne_dbDown (d : Option String) (p : Plugin) (st : State)
    (hdown : st.dbDown = true) (htest : st.pluginTesting = false) :
    initOne d p st = Act.err .dbError st := by
  simp [initOne, getOrCreate, hdown, htest]

theorem loadPass_dbDown (blocked : Option String) (st : State) (p : Plugin)
    (rest : List Plugin) (hplugs : st.plugins = p :: rest)
    (hdown : st.dbDown = true) (htest : st.pluginTesting = false) :
    loadPass blocked st = Act.err .dbError st := by
  simp only [loadPass, initPlugins, hplugs, initLoop,
    initOne_dbDown blocked p st hdown htest]

theorem loadLoop_dbDown (fuel : Nat) (blocked : Option String) (st : State)
    (p : Plugin) (rest : List Plugin) (hplugs : st.plugins = p :: rest)
    (hdown : st.dbDown = true) (htest : st.pluginTesting = false) :
    loadLoop fuel blocked st = LRes.noFuel st := by
  induction fuel with
  | zero => rfl
  | succ n ih =>
    simp only [loadLoop, loadPass_dbDown blocked st p rest hplugs hdown htest]
    exact ih

theorem loadEntryState_dbDown (st : State) :
    (loadEntryState st).dbDown = st.dbDown ∧
    (loadEntryState st).pluginTesting = st.pluginTesting ∧
    (loadEntryState st).plugins = st.plugins := by
  unfold loadEntryState
  by_cases h : st.maintenance <;> simp [h]

/-- C3 counterexample: with the store unprovisioned and test mode off, after
40 full passes `load_plugins` has neither returned nor raised — the
`OperationalError` is caught and the `INIT` attempt is retried internally,
not propagated to the caller. -/
theorem C3_cex :
    loadPlugins 40 c3DownState = LRes.noFuel (loadEntryState c3DownState) := by
  decide

/-- C3 (amended): if the persistence layer raises its not-yet-provisioned
error while test mode is off, `load_plugins` catches it, logs it and re-enters
`INIT` immediately: the error is never propagated to the caller and the loop
spins for any amount of fuel, leaving the state untouched.  Under test
configuration the record is synthesized as `None` and initialisation continues:
the plugin is instantiated with no primary key and inserted into the active
registry. -/
theorem C3_db_error_retried
    (st s : State) (fuel : Nat) (blocked : Option String)
    (p q : Plugin) (rest : List Plugin)
    (hdown : st.dbDown = true) (htest : st.pluginTesting = false)
    (hplugs : st.plugins = p :: rest)
    (h1 : s.dbDown = true) (h2 : s.pluginTesting = true)
    (h3 : q.instFails = false) :
    loadLoop fuel blocked st = LRes.noFuel st ∧
    loadPlugins fuel st = LRes.noFuel (loadEntryState st) ∧
    initOne none q s = Act.ok
      { s with integrationPlugins :=
          dictSet s.integrationPlugins (instanceSlug q) (mkActive q none) } := by
  obtain ⟨e1, e2, e3⟩ := loadEntryState_dbDown st
  refine ⟨loadLoop_dbDown fuel blocked st p rest hplugs hdown htest, ?_, ?_⟩
  · unfold loadPlugins
    rw [loadLoop_dbDown fuel none (loadEntryState st) p rest
      (e3.trans hplugs) (e1.trans hdown) (e2.trans htest)]
  · simp [initOne, getOrCreate, initOneBody, h1, h2, h3, mkActive,
      instanceSlug, plugKey]

/-- Witness for C3: the concrete unprovisioned-store states, off and under
test configuration. -/
theorem C3_witness :
    loadLoop 7 none c3DownState = LRes.noFuel c3DownState ∧
    loadPlugins 7 c3DownState = LRes.noFuel (loadEntryState c3DownState) ∧
    initOne none plugAlpha c3TestState = Act.ok
      { c3TestState with
        integrationPlugins :=
          dictSet c3TestState.integrationPlugins (instanceSlug plugAlpha)
            (mkActive plugAlpha none) } :=
  C3_db_error_retried c3DownState c3TestState 7 none plugAlpha plugAlpha []
    (by decide) (by decide) (by decide) (by decide) (by decide) (by decide)

/-! ## Shape lemmas: which state fields each operation can write

Each operation's result state is the input state with only the listed fields
updated; every other field — in particular the maintenance flag, the static
configuration and, for the operations below, whichever registries they do not
own — is untouched. -/

theorem getOrCreate_shape (k n : String) (st : State) :
    ∃ dbv pk, (getOrCreate k n st).state =
      { st with db := dbv, nextPk := pk } := by
  refine ⟨(getOrCreate k n st).state.db, (getOrCreate k n st).state.nextPk, ?_⟩
  unfold getOrCreate
  split
  · rfl
  · split
    · rfl
    · split
      · rfl
      · rfl

theorem initOneBody_shape (d : Option String) (p : Plugin) (k : String)
    (rec : Option PluginConfigRec) (st : State) :
    ∃ ip ii dbv pe, (initOneBody d p k rec st).state =
      { st with integrationPlugins := ip, integrationPluginsInactive := ii,
                db := dbv, pluginErrors := pe } := by
  refine ⟨(initOneBody d p k rec st).state.integrationPlugins,
    (initOneBody d p k rec st).state.integrationPluginsInactive,
    (initOneBody d p k rec st).state.db,
    (initOneBody d p k rec st).state.pluginErrors, ?_⟩
  unfold initOneBody
  split
  · split
    · split
      · rfl
      · split
        · rfl
        · rfl
    · split
      · rfl
      · rfl
  · rfl

theorem initOne_shape (d : Option String) (p : Plugin) (st : State) :
    ∃ ip ii dbv pk pe, (initOne d p st).state =
      { st with integrationPlugins := ip, integrationPluginsInactive := ii,
                db := dbv, nextPk := pk, pluginErrors := pe } := by
  unfold initOne
  obtain ⟨dbv, pk, hs⟩ := getOrCreate_shape
    (slugify (p.pluginSlug.getD p.pluginName)) p.pluginName st
  cases hg : getOrCreate (slugify (p.pluginSlug.getD p.pluginName))
      p.pluginName st with
  | ok r s1 =>
    rw [hg] at hs
    simp only [GRes.state] at hs
    obtain ⟨ip, ii, dbv2, pe, hb⟩ := initOneBody_shape d p
      (slugify (p.pluginSlug.getD p.pluginName)) (some r) s1
    refine ⟨ip, ii, dbv2, pk, pe, ?_⟩
    simp only [hg]
    rw [hb, hs]
  | err e s1 =>
    rw [hg] at hs
    simp only [GRes.state] at hs
    cases e
    case dbError =>
      by_cases ht : s1.pluginTesting
      · simp only [hg, ht, if_true]
        obtain ⟨ip, ii, dbv2, pe, hb⟩ := initOneBody_shape d p
          (slugify (p.pluginSlug.getD p.pluginName)) none s1
        refine ⟨ip, ii, dbv2, pk, pe, ?_⟩
        rw [hb, hs]
      · simp only [hg, ht, if_false]
        exact ⟨st.integrationPlugins, st.integrationPluginsInactive, dbv, pk,
          st.pluginErrors, hs⟩
    all_goals
      simp only [hg]
      exact ⟨st.integrationPlugins, st.integrationPluginsInactive, dbv, pk,
        st.pluginErrors, hs⟩

theorem frames2_refl (s : State) : Frames2 s s := ⟨rfl, rfl⟩

theorem frames2_trans {s t u : State} (h1 : Frames2 s t) (h2 : Frames2 t u) :
    Frames2 s u := ⟨h1.1.trans h2.1, h1.2.trans h2.2⟩

theorem frames3_refl (s : State) : Frames3 s s := ⟨⟨rfl, rfl⟩, rfl⟩

theorem frames3_trans {s t u : State} (h1 : Frames3 s t) (h2 : Frames3 t u) :
    Frames3 s u :=
  ⟨frames2_trans h1.1 h2.1, h1.2.trans h2.2⟩

theorem untouched_testing {s t : State}
    (h : untouchedOf s = untouchedOf t) : s.pluginTesting = t.pluginTesting :=
  congrArg (fun p => p.1) h

theorem untouched_enableApp {s t : State}
    (h : untouchedOf s = untouchedOf t) : s.enableApp = t.enableApp :=
  congrArg (fun p => p.2.2.1) h

theorem untouched_baseDir {s t : State}
    (h : untouchedOf s = untouchedOf t) : s.baseDir = t.baseDir :=
  congrArg (fun p => p.2.2.2.1) h

theorem untouched_purelib {s t : State}
    (h : untouchedOf s = untouchedOf t) : s.purelib = t.purelib :=
  congrArg (fun p => p.2.2.2.2.1) h

theorem untouched_plugins {s t : State}
    (h : untouchedOf s = untouchedOf t) : s.plugins = t.plugins :=
  congrArg (fun p => p.2.2.2.2.2.1) h

theorem untouched_maintenance {s t : State}
    (h : untouchedOf s = untouchedOf t) : s.maintenance = t.maintenance :=
  congrArg (fun p => p.2.2.2.2.2.2.1) h

theorem untouched_dbDown {s t : State}
    (h : untouchedOf s = untouchedOf t) : s.dbDown = t.dbDown :=
  congrArg (fun p => p.2.2.2.2.2.2.2.1) h

theorem untouched_appFaults {s t : State}
    (h : untouchedOf s = untouchedOf t) : s.appFaults = t.appFaults :=
  congrArg (fun p => p.2.2.2.2.2.2.2.2.1) h

theorem reg_integrationPlugins {s t : State}
    (h : regOf s = regOf t) : s.integrationPlugins = t.integrationPlugins :=
  congrArg (fun p => p.1) h

theorem reg_inactive {s t : State} (h : regOf s = regOf t) :
    s.integrationPluginsInactive = t.integrationPluginsInactive :=
  congrArg (fun p => p.2.1) h

theorem reg_db {s t : State} (h : regOf s = regOf t) : s.db = t.db :=
  congrArg (fun p => p.2.2.1) h

theorem apps_installed {s t : State} (h : appsOf s = appsOf t) :
    s.installedApps = t.installedApps :=
  congrArg (fun p => p.1) h

theorem apps_paths {s t : State} (h : appsOf s = appsOf t) :
    s.integrationAppsPaths = t.integrationAppsPaths :=
  congrArg (fun p => p.2.1) h

theorem apps_loading {s t : State} (h : appsOf s = appsOf t) :
    s.integrationAppsLoading = t.integrationAppsLoading :=
  congrArg (fun p => p.2.2) h

theorem initLoop_shape (d : Option String) : ∀ (ps : List Plugin) (st : State),
    ∃ ip ii dbv pk pe, (initLoop d ps st).state =
      { st with integrationPlugins := ip, integrationPluginsInactive := ii,
                db := dbv, nextPk := pk, pluginErrors := pe }
  | [], st => ⟨st.integrationPlugins, st.integrationPluginsInactive, st.db,
      st.nextPk, st.pluginErrors, rfl⟩
  | p :: rest, st => by
    obtain ⟨ip1, ii1, db1, pk1, pe1, h1⟩ := initOne_shape d p st
    cases ho : initOne d p st with
    | ok s1 =>
      rw [ho] at h1
      simp only [Act.state] at h1
      obtain ⟨ip2, ii2, db2, pk2, pe2, h2⟩ := initLoop_shape d rest s1
      refine ⟨ip2, ii2, db2, pk2, pe2, ?_⟩
      simp only [initLoop, ho]
      rw [h2, h1]
    | err e s1 =>
      rw [ho] at h1
      simp only [Act.state] at h1
      refine ⟨ip1, ii1, db1, pk1, pe1, ?_⟩
      simp only [initLoop, ho]
      exact h1

theorem initPlugins_shape (d : Option String) (st : State) :
    ∃ ip ii dbv pk pe, (initPlugins d st).state =
      { st with integrationPlugins := ip, integrationPluginsInactive := ii,
                db := dbv, nextPk := pk, pluginErrors := pe } :=
  initLoop_shape d st.plugins st

theorem gsLoop_frames : ∀ (ps : List (String × ActivePlugin)) (st : State),
    Frames3 (gsLoop ps st) st
  | [], st => frames3_refl st
  | kv :: rest, st => by
    unfold gsLoop
    split
    · exact frames3_trans (gsLoop_frames rest _) ⟨⟨rfl, rfl⟩, rfl⟩
    · exact gsLoop_frames rest st

theorem activateGlobalSettings_frames (ps : List (String × ActivePlugin))
    (st : State) : Frames3 (activateGlobalSettings ps st) st := by
  unfold activateGlobalSettings
  split
  · exact gsLoop_frames ps st
  · exact frames3_refl st

theorem hotSwap_frames (st : State) : Frames3 (hotSwap st).state st := by
  unfold hotSwap
  split
  · exact frames3_refl st
  · exact ⟨⟨rfl, rfl⟩, rfl⟩

theorem tryReload_frames (st : State) :
    Frames3 (tryReload hotSwap st).state st := by
  have h := hotSwap_frames st
  cases hh : hotSwap st with
  | ok s1 =>
    rw [hh] at h
    simp only [tryReload, hh]
    exact h
  | fail tb m s1 =>
    rw [hh] at h
    simp only [HotRes.state] at h
    simp only [tryReload, hh]
    split
    · split
      · exact h
      · exact h
    · exact h

theorem reloadApps_frames (force : Bool) (st : State) :
    Frames3 (reloadApps force st).state st := by
  cases force with
  | false =>
    have h2 := tryReload_frames { st with integrationPluginsReloading := true }
    cases ht : tryReload hotSwap
        { st with integrationPluginsReloading := true } with
    | ok s2 =>
      rw [ht] at h2
      simp only [reloadApps, Bool.false_eq_true, if_false, ht]
      exact frames3_trans
        (show Frames3 { s2 with integrationPluginsReloading := false } s2 from
          ⟨⟨rfl, rfl⟩, rfl⟩)
        (frames3_trans h2 ⟨⟨rfl, rfl⟩, rfl⟩)
    | err e s2 =>
      rw [ht] at h2
      simp only [reloadApps, Bool.false_eq_true, if_false, ht]
      exact frames3_trans h2 ⟨⟨rfl, rfl⟩, rfl⟩
  | true =>
    have h1 := tryReload_frames { st with appConfigs := [] }
    cases ht1 : tryReload hotSwap { st with appConfigs := [] } with
    | err e s1 =>
      rw [ht1] at h1
      simp only [reloadApps, if_true, ht1]
      exact frames3_trans h1 ⟨⟨rfl, rfl⟩, rfl⟩
    | ok s1 =>
      rw [ht1] at h1
      have h2 := tryReload_frames
        { s1 with integrationPluginsReloading := true }
      cases ht2 : tryReload hotSwap
          { s1 with integrationPluginsReloading := true } with
      | ok s2 =>
        rw [ht2] at h2
        simp only [reloadApps, if_true, ht1, ht2]
        refine frames3_trans
          (show Frames3 { s2 with integrationPluginsReloading := false } s2 from
            ⟨⟨rfl, rfl⟩, rfl⟩) ?_
        refine frames3_trans h2 ?_
        refine frames3_trans (show Frames3
          { s1 with integrationPluginsReloading := true } s1 from
            ⟨⟨rfl, rfl⟩, rfl⟩) ?_
        exact frames3_trans h1 ⟨⟨rfl, rfl⟩, rfl⟩
      | err e s2 =>
        rw [ht2] at h2
        simp only [reloadApps, if_true, ht1, ht2]
        refine frames3_trans h2 ?_
        refine frames3_trans (show Frames3
          { s1 with integrationPluginsReloading := true } s1 from
            ⟨⟨rfl, rfl⟩, rfl⟩) ?_
        exact frames3_trans h1 ⟨⟨rfl, rfl⟩, rfl⟩

theorem reregLoop_frames : ∀ (paths : List String) (st : State),
    Frames3 (reregLoop paths st) st
  | [], st => frames3_refl st
  | path :: rest, st => by
    cases hc : findCfg st (lastComponent path) with
    | none =>
      simp only [reregLoop, hc]
      exact frames3_refl st
    | some cfg =>
      simp only [reregLoop, hc]
      split
      · split
        · exact frames3_trans (reregLoop_frames rest _) ⟨⟨rfl, rfl⟩, rfl⟩
        · exact frames3_trans (reregLoop_frames rest _) ⟨⟨rfl, rfl⟩, rfl⟩
      · split
        · exact frames3_trans (reregLoop_frames rest _) ⟨⟨rfl, rfl⟩, rfl⟩
        · exact frames3_trans (reregLoop_frames rest _) ⟨⟨rfl, rfl⟩, rfl⟩

theorem updateUrls_frames (st : State) : Frames3 (updateUrls st) st :=
  ⟨⟨rfl, rfl⟩, rfl⟩

/-! ## The module binder loop -/

theorem addAppsLoop_spec : ∀ (ps : List (String × ActivePlugin)) (st : State)
    (c : Bool), ∃ new c',
    addAppsLoop ps st c =
      ({ st with installedApps := st.installedApps ++ new,
                 integrationAppsPaths := st.integrationAppsPaths ++ new }, c') ∧
    (∀ q ∈ new, q ∉ st.installedApps ∧
      ∃ kv ∈ ps, kv.2.base.hasApp = true ∧
        q = pluginPath st.baseDir kv.2.base) ∧
    new.Nodup
  | [], st, c =>
    ⟨[], c, by rw [List.append_nil, List.append_nil]; rfl,
      fun q hq => absurd hq (List.not_mem_nil q), List.nodup_nil⟩
  | kv :: rest, st, c => by
    by_cases happ : kv.2.base.hasApp = true
    · by_cases hin : pluginPath st.baseDir kv.2.base ∈ st.installedApps
      · obtain ⟨new, c', hEq, hProps, hNodup⟩ := addAppsLoop_spec rest st c
        refine ⟨new, c', ?_, ?_, hNodup⟩
        · simp only [addAppsLoop, happ, if_true, hin, ite_true]
          exact hEq
        · intro q hq
          obtain ⟨hq1, kv', hkv', hh, hp⟩ := hProps q hq
          exact ⟨hq1, kv', List.mem_cons_of_mem _ hkv', hh, hp⟩
      · obtain ⟨new, c', hEq, hProps, hNodup⟩ := addAppsLoop_spec rest
          { st with
            installedApps :=
              st.installedApps ++ [pluginPath st.baseDir kv.2.base],
            integrationAppsPaths :=
              st.integrationAppsPaths ++ [pluginPath st.baseDir kv.2.base] }
          true
        refine ⟨pluginPath st.baseDir kv.2.base :: new, c', ?_, ?_, ?_⟩
        · simp only [addAppsLoop, happ, if_true, hin, ite_false]
          rw [hEq]
          simp only [List.append_assoc, List.singleton_append]
        · intro q hq
          rcases List.mem_cons.mp hq with rfl | hq'
          · exact ⟨hin, kv, List.mem_cons_self kv rest, happ, rfl⟩
          · obtain ⟨hq1, kv', hkv', hh, hp⟩ := hProps q hq'
            refine ⟨fun hmem => hq1 ?_, kv', List.mem_cons_of_mem _ hkv', hh,
              hp⟩
            exact List.mem_append_left _ hmem
        · refine List.nodup_cons.mpr ⟨?_, hNodup⟩
          intro hmem
          obtain ⟨hq1, _⟩ := hProps _ hmem
          exact hq1 (List.mem_append_right _ (List.mem_singleton.mpr rfl))
    · obtain ⟨new, c', hEq, hProps, hNodup⟩ := addAppsLoop_spec rest st c
      refine ⟨new, c', ?_, ?_, hNodup⟩
      · simp only [addAppsLoop, happ, if_false]
        exact hEq
      · intro q hq
        obtain ⟨hq1, kv', hkv', hh, hp⟩ := hProps q hq
        exact ⟨hq1, kv', List.mem_cons_of_mem _ hkv', hh, hp⟩

theorem addAppsLoop_mono_mem : ∀ (ps : List (String × ActivePlugin))
    (st : State) (c : Bool) (x : String), x ∈ st.installedApps →
    x ∈ (addAppsLoop ps st c).1.installedApps
  | [], _, _, _, hx => hx
  | kv :: rest, st, c, x, hx => by
    unfold addAppsLoop
    split
    · split
      · exact addAppsLoop_mono_mem rest st c x hx
      · exact addAppsLoop_mono_mem rest _ true x (List.mem_append_left _ hx)
    · exact addAppsLoop_mono_mem rest st c x hx

theorem addAppsLoop_mem : ∀ (ps : List (String × ActivePlugin)) (st : State)
    (c : Bool) (kv : String × ActivePlugin), kv ∈ ps →
    kv.2.base.hasApp = true →
    pluginPath st.baseDir kv.2.base ∈ (addAppsLoop ps st c).1.installedApps
  | [], _, _, _, hkv, _ => absurd hkv (List.not_mem_nil _)
  | kv0 :: rest, st, c, kv, hkv, happ => by
    rcases List.mem_cons.mp hkv with rfl | hkv'
    · unfold addAppsLoop
      rw [if_pos happ]
      split
      · exact addAppsLoop_mono_mem rest st c _ (by assumption)
      · exact addAppsLoop_mono_mem rest _ true _
          (List.mem_append_right _ (List.mem_singleton.mpr rfl))
    · unfold addAppsLoop
      split
      · split
        · exact addAppsLoop_mem rest st c kv hkv' happ
        · have h := addAppsLoop_mem rest
            { st with
              installedApps :=
                st.installedApps ++ [pluginPath st.baseDir kv0.2.base],
              integrationAppsPaths :=
                st.integrationAppsPaths ++ [pluginPath st.baseDir kv0.2.base] }
            true kv hkv' happ
          exact h
      · exact addAppsLoop_mem rest st c kv hkv' happ

theorem addAppsLoop_none : ∀ (ps : List (String × ActivePlugin)) (st : State)
    (c : Bool),
    (∀ kv ∈ ps, kv.2.base.hasApp = true →
      pluginPath st.baseDir kv.2.base ∈ st.installedApps) →
    addAppsLoop ps st c = (st, c)
  | [], _, _, _ => rfl
  | kv :: rest, st, c, h => by
    by_cases happ : kv.2.base.hasApp = true
    · have hin := h kv (List.mem_cons_self kv rest) happ
      simp only [addAppsLoop, happ, if_true, hin, ite_true]
      exact addAppsLoop_none rest st c
        (fun kv' hkv' => h kv' (List.mem_cons_of_mem _ hkv'))
    · simp only [addAppsLoop, happ, if_false]
      exact addAppsLoop_none rest st c
        (fun kv' hkv' => h kv' (List.mem_cons_of_mem _ hkv'))

theorem addAppsLoop_changed_mono : ∀ (ps : List (String × ActivePlugin))
    (st : State), (addAppsLoop ps st true).2 = true
  | [], _ => rfl
  | kv :: rest, st => by
    unfold addAppsLoop
    split
    · split
      · exact addAppsLoop_changed_mono rest st
      · exact addAppsLoop_changed_mono rest _
    · exact addAppsLoop_changed_mono rest st

theorem addAppsLoop_changed : ∀ (ps : List (String × ActivePlugin))
    (st : State) (c : Bool) (kv : String × ActivePlugin), kv ∈ ps →
    kv.2.base.hasApp = true →
    pluginPath st.baseDir kv.2.base ∉ st.installedApps →
    (addAppsLoop ps st c).2 = true
  | [], _, _, _, hkv, _, _ => absurd hkv (List.not_mem_nil _)
  | kv0 :: rest, st, c, kv, hkv, happ, hout => by
    rcases List.mem_cons.mp hkv with rfl | hkv'
    · simp only [addAppsLoop, happ, if_true, hout, ite_false]
      exact addAppsLoop_changed_mono rest _
    · by_cases happ0 : kv0.2.base.hasApp = true
      · by_cases hin0 : pluginPath st.baseDir kv0.2.base ∈ st.installedApps
        · simp only [addAppsLoop, happ0, if_true, hin0, ite_true]
          exact addAppsLoop_changed rest st c kv hkv' happ hout
        · simp only [addAppsLoop, happ0, if_true, hin0, ite_false]
          exact addAppsLoop_changed_mono rest _
      · simp only [addAppsLoop, happ0, if_false]
        exact addAppsLoop_changed rest st c kv hkv' happ hout

/-! ## The module binder as a whole -/

theorem appSyncTail_frames (m : State) :
    Frames3 (appSyncTail m).state m := by
  have hf := reloadApps_frames false m
  cases hr : reloadApps false m with
  | err e s3 =>
    rw [hr] at hf
    simp only [appSyncTail, hr]
    exact hf
  | ok s3 =>
    rw [hr] at hf
    simp only [appSyncTail, hr]
    exact frames3_trans (frames3_trans (updateUrls_frames _)
      (reregLoop_frames s3.integrationAppsPaths s3)) hf

theorem activateIntegrationApp_spec (ps : List (String × ActivePlugin))
    (force : Bool) (st : State) :
    Frames2 (activateIntegrationApp ps force st).state st ∧
    ∃ new,
      (activateIntegrationApp ps force st).state.installedApps =
        st.installedApps ++ new ∧
      (activateIntegrationApp ps force st).state.integrationAppsPaths =
        st.integrationAppsPaths ++ new ∧
      (∀ q ∈ new, q ∉ st.installedApps ∧
        ∃ kv ∈ ps, kv.2.base.hasApp = true ∧
          q = pluginPath st.baseDir kv.2.base) ∧
      new.Nodup := by
  unfold activateIntegrationApp
  by_cases hg : (st.pluginTesting || st.enableApp) = true
  case neg =>
    rw [if_neg hg]
    exact ⟨frames2_refl st, [], (List.append_nil _).symm,
      (List.append_nil _).symm, fun q hq => absurd hq (List.not_mem_nil q),
      List.nodup_nil⟩
  case pos =>
    rw [if_pos hg]
    obtain ⟨new, c', hEq, hProps, hNodup⟩ := addAppsLoop_spec ps st false
    simp only [hEq]
    by_cases hcf : (c' || force) = true
    case neg =>
      rw [if_neg hcf]
      exact ⟨⟨rfl, rfl⟩, new, rfl, rfl, hProps, hNodup⟩
    case pos =>
      rw [if_pos hcf]
      set L : State :=
        { st with
          installedApps := st.installedApps ++ new,
          integrationAppsPaths := st.integrationAppsPaths ++ new }
        with hLdef
      have hL2 : Frames2 L st := ⟨rfl, rfl⟩
      have hLi : L.installedApps = st.installedApps ++ new := rfl
      have hLp : L.integrationAppsPaths = st.integrationAppsPaths ++ new := rfl
      by_cases hlf : (L.integrationAppsLoading || force) = true
      case pos =>
        rw [if_pos hlf]
        have hM2 : Frames2 { L with integrationAppsLoading := false } st :=
          frames2_trans ⟨rfl, rfl⟩ hL2
        have hf2 := reloadApps_frames true
          { L with integrationAppsLoading := false }
        cases hr2 : reloadApps true
            { L with integrationAppsLoading := false } with
        | err e s2 =>
          rw [hr2] at hf2
          simp only [hr2]
          exact ⟨frames2_trans hf2.1 hM2, new,
            (apps_installed hf2.2).trans hLi,
            (apps_paths hf2.2).trans hLp, hProps, hNodup⟩
        | ok s2 =>
          rw [hr2] at hf2
          simp only [hr2]
          have hT := appSyncTail_frames s2
          have hF3 := frames3_trans hT hf2
          exact ⟨frames2_trans hF3.1 hM2, new,
            (apps_installed hF3.2).trans hLi,
            (apps_paths hF3.2).trans hLp, hProps, hNodup⟩
      case neg =>
        rw [if_neg hlf]
        have hT := appSyncTail_frames L
        exact ⟨frames2_trans hT.1 hL2, new,
          (apps_installed hT.2).trans hLi,
          (apps_paths hT.2).trans hLp, hProps, hNodup⟩

theorem activatePlugins_spec (force : Bool) (st : State) :
    Frames2 (activatePlugins force st).state st ∧
    ∃ new,
      (activatePlugins force st).state.installedApps =
        st.installedApps ++ new ∧
      (activatePlugins force st).state.integrationAppsPaths =
        st.integrationAppsPaths ++ new ∧
      (∀ q ∈ new, q ∉ st.installedApps) ∧
      new.Nodup := by
  unfold activatePlugins
  have hgs := activateGlobalSettings_frames st.integrationPlugins st
  obtain ⟨hF2, new, hi, hp, hprops, hnd⟩ := activateIntegrationApp_spec
    st.integrationPlugins force (activateGlobalSettings st.integrationPlugins st)
  refine ⟨frames2_trans hF2 hgs.1, new, ?_, ?_, ?_, hnd⟩
  · rw [hi, apps_installed hgs.2]
  · rw [hp, apps_paths hgs.2]
  · intro q hq
    have h := (hprops q hq).1
    rw [apps_installed hgs.2] at h
    exact h

/-! ## The `INSTALLED_APPS` bookkeeping invariant -/

theorem AppsInv_of_appsOf {orig : List String} {s t : State}
    (h : appsOf s = appsOf t) (inv : AppsInv orig t) : AppsInv orig s := by
  obtain ⟨h1, h2, h3⟩ := inv
  exact ⟨(apps_installed h).trans (h1.trans (by rw [apps_paths h])),
    (apps_paths h) ▸ h2, (apps_paths h) ▸ h3⟩

theorem AppsInv_extend {orig : List String} {st s : State} (new : List String)
    (inv : AppsInv orig st)
    (happs : s.installedApps = st.installedApps ++ new)
    (hpaths : s.integrationAppsPaths = st.integrationAppsPaths ++ new)
    (hfresh : ∀ q ∈ new, q ∉ st.installedApps) (hnd : new.Nodup) :
    AppsInv orig s := by
  obtain ⟨h1, h2, h3⟩ := inv
  refine ⟨?_, ?_, ?_⟩
  · rw [happs, hpaths, h1, List.append_assoc]
  · rw [hpaths, List.nodup_append]
    refine ⟨h2, hnd, ?_⟩
    intro a ha hb
    exact hfresh a hb (h1 ▸ List.mem_append_right orig ha)
  · intro p hp
    rw [hpaths] at hp
    rcases List.mem_append.mp hp with h | h
    · exact h3 p h
    · intro hporig
      exact hfresh p h (h1 ▸ List.mem_append_left _ hporig)

theorem foldl_erase_all : ∀ (xs orig : List String), xs.Nodup →
    (∀ p ∈ xs, p ∉ orig) →
    xs.foldl (fun apps p => if p ∈ apps then apps.erase p else apps)
      (orig ++ xs) = orig
  | [], orig, _, _ => List.append_nil orig
  | x :: rest, orig, hnd, hout => by
    have hx : x ∈ orig ++ x :: rest :=
      List.mem_append_right _ (List.mem_cons_self x rest)
    have hxorig : x ∉ orig := hout x (List.mem_cons_self x rest)
    simp only [List.foldl_cons, hx, ite_true]
    rw [List.erase_append_right _ hxorig, List.erase_cons_head]
    exact foldl_erase_all rest orig (List.nodup_cons.mp hnd).2
      (fun p hp => hout p (List.mem_cons_of_mem _ hp))

theorem cleanInstalledApps_inv {orig : List String} {st : State}
    (inv : AppsInv orig st) :
    (cleanInstalledApps st).installedApps = orig ∧
    (cleanInstalledApps st).integrationAppsPaths = [] := by
  obtain ⟨h1, h2, h3⟩ := inv
  constructor
  · show st.integrationAppsPaths.foldl
      (fun apps p => if p ∈ apps then apps.erase p else apps)
        st.installedApps = orig
    rw [h1]
    exact foldl_erase_all st.integrationAppsPaths orig h2 h3
  · rfl

/-! ## One pass of the loading loop -/

theorem loadPass_untouched (b : Option String) (st : State) :
    untouchedOf (loadPass b st).state = untouchedOf st := by
  unfold loadPass
  obtain ⟨ip, ii, dbv, pk, pe, hs⟩ := initPlugins_shape b st
  cases hi : initPlugins b st with
  | err e s1 =>
    rw [hi] at hs
    simp only [Act.state] at hs
    simp only [hi]
    show untouchedOf s1 = untouchedOf st
    rw [hs]
    rfl
  | ok s1 =>
    rw [hi] at hs
    simp only [Act.state] at hs
    simp only [hi]
    have h2 := (activatePlugins_spec false s1).1.1
    rw [h2, hs]
    rfl

theorem loadPass_inv (b : Option String) (st : State) (orig : List String)
    (inv : AppsInv orig st) : AppsInv orig (loadPass b st).state := by
  unfold loadPass
  obtain ⟨ip, ii, dbv, pk, pe, hs⟩ := initPlugins_shape b st
  cases hi : initPlugins b st with
  | err e s1 =>
    rw [hi] at hs
    simp only [Act.state] at hs
    simp only [hi]
    exact AppsInv_of_appsOf (show appsOf s1 = appsOf st by rw [hs]; rfl) inv
  | ok s1 =>
    rw [hi] at hs
    simp only [Act.state] at hs
    simp only [hi]
    have inv1 : AppsInv orig s1 :=
      AppsInv_of_appsOf (show appsOf s1 = appsOf st by rw [hs]; rfl) inv
    obtain ⟨hF2, new, hi2, hp2, hfresh, hnd⟩ := activatePlugins_spec false s1
    exact AppsInv_extend new inv1 hi2 hp2 hfresh hnd

/-- The registry-clearing recovery performed on a `PluginLoadingError`. -/
theorem recovery_untouched (p m : String) (s2 : State) :
    untouchedOf (activatePlugins true (cleanInstalledApps (cleanRegistry
      { s2 with pluginErrors := s2.pluginErrors ++ [(p, m)] }))).state =
    untouchedOf s2 := by
  have h := (activatePlugins_spec true (cleanInstalledApps (cleanRegistry
    { s2 with pluginErrors := s2.pluginErrors ++ [(p, m)] }))).1.1
  rw [h]
  rfl

theorem recovery_inv (p m : String) (s2 : State) (orig : List String)
    (inv : AppsInv orig s2) :
    AppsInv orig (activatePlugins true (cleanInstalledApps (cleanRegistry
      { s2 with pluginErrors := s2.pluginErrors ++ [(p, m)] }))).state := by
  have invl : AppsInv orig (cleanRegistry
      { s2 with pluginErrors := s2.pluginErrors ++ [(p, m)] }) :=
    AppsInv_of_appsOf rfl inv
  obtain ⟨hci, hcp⟩ := cleanInstalledApps_inv invl
  have invc : AppsInv orig (cleanInstalledApps (cleanRegistry
      { s2 with pluginErrors := s2.pluginErrors ++ [(p, m)] })) := by
    refine ⟨?_, ?_, ?_⟩
    · rw [hci, hcp, List.append_nil]
    · rw [hcp]
      exact List.nodup_nil
    · rw [hcp]
      intro q hq
      exact absurd hq (List.not_mem_nil q)
  obtain ⟨hF2, new, hi2, hp2, hfresh, hnd⟩ := activatePlugins_spec true
    (cleanInstalledApps (cleanRegistry
      { s2 with pluginErrors := s2.pluginErrors ++ [(p, m)] }))
  exact AppsInv_extend new invc hi2 hp2 hfresh hnd

/-! ## The loading loop -/

theorem loadLoop_untouched : ∀ (fuel : Nat) (b : Option String) (st : State),
    untouchedOf (loadLoop fuel b st).state = untouchedOf st
  | 0, _, _ => rfl
  | fuel + 1, b, st => by
    have hp := loadPass_untouched b st
    cases hl : loadPass b st with
    | ok s2 =>
      rw [hl] at hp
      simp only [loadLoop, hl]
      exact hp
    | err e s2 =>
      rw [hl] at hp
      simp only [Act.state] at hp
      cases e
      case dbError =>
        simp only [loadLoop, hl]
        exact (loadLoop_untouched fuel b s2).trans hp
      case pluginLoadingError p m =>
        simp only [loadLoop, hl]
        have hrec := recovery_untouched p m s2
        cases hac : activatePlugins true (cleanInstalledApps (cleanRegistry
            { s2 with pluginErrors := s2.pluginErrors ++ [(p, m)] })) with
        | ok s3 =>
          rw [hac] at hrec
          simp only [hac]
          exact (loadLoop_untouched fuel (some p) s3).trans (hrec.trans hp)
        | err e2 s3 =>
          rw [hac] at hrec
          simp only [hac]
          exact hrec.trans hp
      all_goals
        simp only [loadLoop, hl]
        exact hp

theorem loadLoop_inv : ∀ (fuel : Nat) (b : Option String) (st : State)
    (orig : List String), AppsInv orig st →
    AppsInv orig (loadLoop fuel b st).state
  | 0, _, _, _, inv => inv
  | fuel + 1, b, st, orig, inv => by
    have hp := loadPass_inv b st orig inv
    cases hl : loadPass b st with
    | ok s2 =>
      rw [hl] at hp
      simp only [loadLoop, hl]
      exact hp
    | err e s2 =>
      rw [hl] at hp
      simp only [Act.state] at hp
      cases e
      case dbError =>
        simp only [loadLoop, hl]
        exact loadLoop_inv fuel b s2 orig hp
      case pluginLoadingError p m =>
        simp only [loadLoop, hl]
        have hrec := recovery_inv p m s2 orig hp
        cases hac : activatePlugins true (cleanInstalledApps (cleanRegistry
            { s2 with pluginErrors := s2.pluginErrors ++ [(p, m)] })) with
        | ok s3 =>
          rw [hac] at hrec
          simp only [hac]
          exact loadLoop_inv fuel (some p) s3 orig hrec
        | err e2 s3 =>
          rw [hac] at hrec
          simp only [hac]
          exact hrec
      all_goals
        simp only [loadLoop, hl]
        exact hp

/-! ## Deactivation frames -/

theorem deactBody_frames (path : String) (st : State) :
    Frames3 (deactBody path st).state st := by
  cases hf : findCfg st (lastComponent path) with
  | none =>
    simp only [deactBody, hf]
    exact frames3_refl st
  | some cfg =>
    simp only [deactBody, hf]
    repeat' split
    all_goals exact ⟨⟨rfl, rfl⟩, rfl⟩

theorem deactLoop_frames : ∀ (paths : List String) (st : State),
    Frames3 (deactLoop paths st).state st
  | [], st => frames3_refl st
  | path :: rest, st => by
    have hb := deactBody_frames path st
    cases hd : deactBody path st with
    | cont s1 =>
      rw [hd] at hb
      simp only [deactLoop, hd]
      exact frames3_trans (deactLoop_frames rest s1) hb
    | brk s1 =>
      rw [hd] at hb
      simp only [deactLoop, hd]
      exact hb
    | err e s1 =>
      rw [hd] at hb
      simp only [deactLoop, hd]
      exact hb

theorem deactivateGlobalSettings_frames (st : State) :
    Frames2 (deactivateGlobalSettings st).state st ∧
    appsOf (deactivateGlobalSettings st).state = appsOf st := by
  unfold deactivateGlobalSettings
  cases hp : popKeys (trackedUnion st) st.globalSettings with
  | mk o gs' =>
    cases o with
    | some k => exact ⟨⟨rfl, rfl⟩, rfl⟩
    | none => exact ⟨⟨rfl, rfl⟩, rfl⟩

theorem deactivateIntegrationApp_spec (st : State) :
    Frames2 (deactivateIntegrationApp st).state st ∧
    ∀ (orig : List String) (s2 : State),
      deactivateIntegrationApp st = Act.ok s2 → AppsInv orig st →
      s2.installedApps = orig ∧ s2.integrationAppsPaths = [] := by
  have hdl := deactLoop_frames st.integrationAppsPaths st
  cases hd : deactLoop st.integrationAppsPaths st with
  | err e s1 =>
    rw [hd] at hdl
    constructor
    · simp only [deactivateIntegrationApp, hd]
      exact hdl.1
    · intro orig s2 hok _
      simp only [deactivateIntegrationApp, hd] at hok
      exact absurd hok (by simp)
  | ok s1 =>
    rw [hd] at hdl
    have hrl := reloadApps_frames false
      { (cleanInstalledApps s1) with integrationAppsLoaded := false }
    cases hr : reloadApps false
        { (cleanInstalledApps s1) with integrationAppsLoaded := false } with
    | err e s3 =>
      rw [hr] at hrl
      constructor
      · simp only [deactivateIntegrationApp, hd, hr]
        exact frames2_trans (frames2_trans hrl.1 ⟨rfl, rfl⟩) hdl.1
      · intro orig s2 hok _
        simp only [deactivateIntegrationApp, hd, hr] at hok
        exact absurd hok (by simp)
    | ok s3 =>
      rw [hr] at hrl
      constructor
      · simp only [deactivateIntegrationApp, hd, hr]
        exact frames2_trans (updateUrls_frames s3).1
          (frames2_trans (frames2_trans hrl.1 ⟨rfl, rfl⟩) hdl.1)
      · intro orig s2 hok inv
        simp only [deactivateIntegrationApp, hd, hr] at hok
        have hs2 : s2 = updateUrls s3 := by
          cases hok
          rfl
        have inv1 : AppsInv orig s1 := AppsInv_of_appsOf hdl.2 inv
        obtain ⟨hci, hcp⟩ := cleanInstalledApps_inv inv1
        have h3i : s3.installedApps = orig := by
          have h := apps_installed hrl.2
          simp only [Act.state] at h
          rw [h]
          exact hci
        have h3p : s3.integrationAppsPaths = [] := by
          have h := apps_paths hrl.2
          simp only [Act.state] at h
          rw [h]
          exact hcp
        rw [hs2]
        exact ⟨h3i, h3p⟩

theorem deactivatePlugins_spec (st : State) :
    Frames2 (deactivatePlugins st).state st ∧
    ∀ (orig : List String) (s2 : State),
      deactivatePlugins st = Act.ok s2 → AppsInv orig st →
      s2.installedApps = orig ∧ s2.integrationAppsPaths = [] ∧
      s2.integrationPlugins = st.integrationPlugins ∧
      s2.integrationPluginsInactive = st.integrationPluginsInactive := by
  obtain ⟨hF2, hok⟩ := deactivateIntegrationApp_spec st
  cases hd : deactivateIntegrationApp st with
  | err e s1 =>
    rw [hd] at hF2
    constructor
    · simp only [deactivatePlugins, hd]
      exact hF2
    · intro orig s2 h2 _
      simp only [deactivatePlugins, hd] at h2
      exact absurd h2 (by simp)
  | ok s1 =>
    rw [hd] at hF2
    obtain ⟨hgs2, hgsa⟩ := deactivateGlobalSettings_frames s1
    constructor
    · simp only [deactivatePlugins, hd]
      exact frames2_trans hgs2 hF2
    · intro orig s2 h2 inv
      simp only [deactivatePlugins, hd] at h2
      obtain ⟨h1i, h1p⟩ := hok orig s1 hd inv
      rw [h2] at hgs2 hgsa
      simp only [Act.state] at hgs2 hgsa hF2
      refine ⟨?_, ?_, ?_, ?_⟩
      · rw [apps_installed hgsa]
        exact h1i
      · rw [apps_paths hgsa]
        exact h1p
      · exact (reg_integrationPlugins hgs2.2).trans
          (reg_integrationPlugins hF2.2)
      · exact (reg_inactive hgs2.2).trans (reg_inactive hF2.2)

theorem cleanRegistry_frames (st : State) :
    untouchedOf (cleanRegistry st) = untouchedOf st ∧
    appsOf (cleanRegistry st) = appsOf st :=
  ⟨rfl, rfl⟩

theorem cleanInstalledApps_frames (st : State) :
    untouchedOf (cleanInstalledApps st) = untouchedOf st ∧
    regOf (cleanInstalledApps st) = regOf st :=
  ⟨rfl, rfl⟩

/-! ## C5 — maintenance-mode restoration -/

/-- C5: for every `load_plugins`, `unload_plugins` or `reload_plugins` call
that returns normally, the maintenance-mode flag afterwards equals its value
before the call; moreover the state the loading loop runs in has maintenance
mode on, and no pass of the loop ever changes the flag. -/
theorem C5_maintenance (st sl su sr s : State) (fuel : Nat)
    (b : Option String) :
    (loadPlugins fuel st = LRes.ok sl → sl.maintenance = st.maintenance) ∧
    (unloadPlugins st = Act.ok su → su.maintenance = st.maintenance) ∧
    (reloadPlugins fuel st = LRes.ok sr → sr.maintenance = st.maintenance) ∧
    (loadEntryState st).maintenance = true ∧
    (loadLoop fuel b s).state.maintenance = s.maintenance := by
  refine ⟨?_, ?_, ?_, ?_, untouched_maintenance (loadLoop_untouched fuel b s)⟩
  · intro h
    unfold loadPlugins at h
    have hu := loadLoop_untouched fuel none (loadEntryState st)
    cases hl : loadLoop fuel none (loadEntryState st) with
    | ok s2 =>
      rw [hl] at h hu
      simp only [LRes.state] at hu
      have hs2m : s2.maintenance = (loadEntryState st).maintenance :=
        untouched_maintenance hu
      by_cases hm : st.maintenance = true
      · simp only [hm, Bool.not_true, Bool.false_eq_true, if_false] at h
        cases h
        rw [hs2m]
        unfold loadEntryState
        simp [hm]
      · have hm' : st.maintenance = false := by
          cases hmv : st.maintenance
          · rfl
          · exact absurd hmv hm
        simp only [hm', Bool.not_false, if_true] at h
        cases h
        simp [hm']
    | err e s2 =>
      rw [hl] at h
      exact absurd h (by simp)
    | noFuel s2 =>
      rw [hl] at h
      exact absurd h (by simp)
  · intro h
    unfold unloadPlugins at h
    by_cases hm : st.maintenance = true
    · simp only [hm, Bool.not_true, Bool.false_eq_true, if_false] at h
      have hd := (deactivatePlugins_spec (cleanRegistry st)).1.1
      cases hdp : deactivatePlugins (cleanRegistry st) with
      | ok s3 =>
        rw [hdp] at h hd
        simp only [Act.state] at hd
        cases h
        rw [untouched_maintenance hd]
        rfl
      | err e s3 =>
        rw [hdp] at h
        exact absurd h (by simp)
    · have hm' : st.maintenance = false := by
        cases hmv : st.maintenance
        · rfl
        · exact absurd hmv hm
      simp only [hm', Bool.not_false, if_true] at h
      cases hdp : deactivatePlugins (cleanRegistry
          { st with maintenance := true }) with
      | ok s3 =>
        rw [hdp] at h
        cases h
        simp [hm']
      | err e s3 =>
        rw [hdp] at h
        exact absurd h (by simp)
  · intro h
    unfold reloadPlugins at h
    cases hu : unloadPlugins { st with maintenance := true } with
    | err e s2 =>
      simp only [hu] at h
      exact absurd h (by simp)
    | ok s2 =>
      simp only [hu] at h
      cases hlp : loadPlugins fuel s2 with
      | ok s3 =>
        simp only [hlp] at h
        cases h
        rfl
      | err e s3 =>
        simp only [hlp] at h
        exact absurd h (by simp)
      | noFuel s3 =>
        simp only [hlp] at h
        exact absurd h (by simp)
  · unfold loadEntryState
    by_cases hm : st.maintenance = true
    · simp [hm]
    · have hm' : st.maintenance = false := by
        cases hmv : st.maintenance
        · rfl
        · exact absurd hmv hm
      simp [hm']

/-- Witness for C5 at a concrete idle state: load, unload and reload all
return normally and leave the (initially off) maintenance flag off. -/
theorem C5_witness :
    (loadPlugins 1 c5State = LRes.ok (loadPlugins 1 c5State).state →
      (loadPlugins 1 c5State).state.maintenance = c5State.maintenance) ∧
    (unloadPlugins c5State = Act.ok (unloadPlugins c5State).state →
      (unloadPlugins c5State).state.maintenance = c5State.maintenance) ∧
    (reloadPlugins 1 c5State = LRes.ok (reloadPlugins 1 c5State).state →
      (reloadPlugins 1 c5State).state.maintenance = c5State.maintenance) ∧
    (loadEntryState c5State).maintenance = true ∧
    (loadLoop 1 none c5State).state.maintenance = c5State.maintenance :=
  C5_maintenance c5State (loadPlugins 1 c5State).state
    (unloadPlugins c5State).state (reloadPlugins 1 c5State).state c5State 1
    none

/-! ## C6 — load/unload round trip -/

theorem loadEntryState_appsOf (st : State) :
    appsOf (loadEntryState st) = appsOf st := by
  unfold loadEntryState
  by_cases hm : st.maintenance = true <;> simp [hm, appsOf]

/-- C6: starting from a state with an empty tracking list, a `load_plugins`
followed by an `unload_plugins`, both returning normally, leaves both registry
maps empty, the tracking list empty, and `INSTALLED_APPS` exactly as it was
before the load — every plugin module path the load added has been removed. -/
theorem C6_roundtrip (st s1 s2 : State) (fuel : Nat)
    (hpaths : st.integrationAppsPaths = [])
    (hload : loadPlugins fuel st = LRes.ok s1)
    (hunload : unloadPlugins s1 = Act.ok s2) :
    s2.integrationPlugins = [] ∧
    s2.integrationPluginsInactive = [] ∧
    s2.integrationAppsPaths = [] ∧
    s2.installedApps = st.installedApps := by
  have inv0 : AppsInv st.installedApps st := by
    refine ⟨?_, ?_, ?_⟩
    · rw [hpaths, List.append_nil]
    · rw [hpaths]; exact List.nodup_nil
    · rw [hpaths]; intro p hp; exact absurd hp (List.not_mem_nil p)
  -- the invariant survives the load
  have inv1 : AppsInv st.installedApps s1 := by
    unfold loadPlugins at hload
    have hll := loadLoop_inv fuel none (loadEntryState st) st.installedApps
      (AppsInv_of_appsOf (loadEntryState_appsOf st) inv0)
    cases hl : loadLoop fuel none (loadEntryState st) with
    | ok s2' =>
      rw [hl] at hload hll
      simp only [LRes.state] at hll
      by_cases hm : st.maintenance = true
      · simp only [hm, Bool.not_true, Bool.false_eq_true, if_false] at hload
        cases hload
        exact hll
      · have hm' : st.maintenance = false := by
          cases hmv : st.maintenance
          · rfl
          · exact absurd hmv hm
        simp only [hm', Bool.not_false, if_true] at hload
        cases hload
        exact AppsInv_of_appsOf rfl hll
    | err e s2' =>
      rw [hl] at hload
      exact absurd hload (by simp)
    | noFuel s2' =>
      rw [hl] at hload
      exact absurd hload (by simp)
  -- unload clears everything
  unfold unloadPlugins at hunload
  by_cases hm1 : s1.maintenance = true
  · simp only [hm1, Bool.not_true, Bool.false_eq_true, if_false] at hunload
    have hspec := (deactivatePlugins_spec (cleanRegistry s1)).2
    cases hdp : deactivatePlugins (cleanRegistry s1) with
    | ok s3 =>
      rw [hdp] at hunload
      cases hunload
      obtain ⟨hi2, hp2, hip, hii⟩ := hspec st.installedApps s2 hdp
        (AppsInv_of_appsOf rfl inv1)
      exact ⟨hip, hii, hp2, hi2⟩
    | err e s3 =>
      rw [hdp] at hunload
      exact absurd hunload (by simp)
  · have hm1' : s1.maintenance = false := by
      cases hmv : s1.maintenance
      · rfl
      · exact absurd hmv hm1
    simp only [hm1', Bool.not_false, if_true] at hunload
    have hspec := (deactivatePlugins_spec (cleanRegistry
      { s1 with maintenance := true })).2
    cases hdp : deactivatePlugins (cleanRegistry
        { s1 with maintenance := true }) with
    | ok s3 =>
      rw [hdp] at hunload
      cases hunload
      obtain ⟨hi2, hp2, hip, hii⟩ := hspec st.installedApps s3 hdp
        (AppsInv_of_appsOf rfl (AppsInv_of_appsOf rfl inv1))
      exact ⟨hip, hii, hp2, hi2⟩
    | err e s3 =>
      rw [hdp] at hunload
      exact absurd hunload (by simp)

/-- Witness for C6: one clean plugin is loaded (its app path is appended) and
unloaded again, returning `INSTALLED_APPS` to exactly the base list and both
registries to empty. -/
theorem C6_witness :
    (loadPlugins 1 c6State).state.integrationPlugins = [] ∨
    ((unloadPlugins (loadPlugins 1 c6State).state).state.integrationPlugins
        = [] ∧
      (unloadPlugins
        (loadPlugins 1 c6State).state).state.integrationPluginsInactive = [] ∧
      (unloadPlugins
        (loadPlugins 1 c6State).state).state.integrationAppsPaths = [] ∧
      (unloadPlugins (loadPlugins 1 c6State).state).state.installedApps =
        c6State.installedApps) :=
  Or.inr (C6_roundtrip c6State (loadPlugins 1 c6State).state
    (unloadPlugins (loadPlugins 1 c6State).state).state 1 (by decide)
    (by decide) (by decide))

/-! ## C7 — idempotent module binding -/

theorem activateIntegrationApp_keeps (ps : List (String × ActivePlugin))
    (force : Bool) (st : State) (kv : String × ActivePlugin)
    (hkv : kv ∈ ps) (happ : kv.2.base.hasApp = true)
    (hg : (st.pluginTesting || st.enableApp) = true) :
    pluginPath st.baseDir kv.2.base ∈
      (activateIntegrationApp ps force st).state.installedApps := by
  unfold activateIntegrationApp
  rw [if_pos hg]
  obtain ⟨new, c', hEq, hProps, hNodup⟩ := addAppsLoop_spec ps st false
  have hmem := addAppsLoop_mem ps st false kv hkv happ
  rw [hEq] at hmem
  simp only [hEq]
  by_cases hcf : (c' || force) = true
  case neg =>
    rw [if_neg hcf]
    exact hmem
  case pos =>
    rw [if_pos hcf]
    set L : State :=
      { st with
        installedApps := st.installedApps ++ new,
        integrationAppsPaths := st.integrationAppsPaths ++ new }
      with hLdef
    by_cases hlf : (L.integrationAppsLoading || force) = true
    case pos =>
      rw [if_pos hlf]
      have hf2 := reloadApps_frames true
        { L with integrationAppsLoading := false }
      cases hr2 : reloadApps true
          { L with integrationAppsLoading := false } with
      | err e s2 =>
        rw [hr2] at hf2
        simp only [hr2, Act.state]
        simp only [Act.state] at hf2
        rw [apps_installed hf2.2]
        exact hmem
      | ok s2 =>
        rw [hr2] at hf2
        simp only [hr2]
        have hT := appSyncTail_frames s2
        rw [apps_installed hT.2]
        rw [show (Act.ok s2).state = s2 from rfl] at hf2
        rw [apps_installed hf2.2]
        exact hmem
    case neg =>
      rw [if_neg hlf]
      have hT := appSyncTail_frames L
      rw [apps_installed hT.2]
      exact hmem

/-- C7: a second invocation of the module binder with an unchanged plugin set
is a complete no-op: a module path already present in the host module list is
never appended again, and both `INSTALLED_APPS` and `INTEGRATION_APPS_PATHS`
are unchanged in length and content. -/
theorem C7_idempotent_binding (ps : List (String × ActivePlugin))
    (st st1 : State)
    (h : activateIntegrationApp ps false st = Act.ok st1) :
    activateIntegrationApp ps false st1 = Act.ok st1 ∧
    (activateIntegrationApp ps false st1).state.installedApps =
      st1.installedApps ∧
    (activateIntegrationApp ps false st1).state.integrationAppsPaths =
      st1.integrationAppsPaths := by
  have hmain : activateIntegrationApp ps false st1 = Act.ok st1 := by
    by_cases hg : (st.pluginTesting || st.enableApp) = true
    · have hF2 := (activateIntegrationApp_spec ps false st).1
      rw [h] at hF2
      simp only [Act.state] at hF2
      have hg1 : (st1.pluginTesting || st1.enableApp) = true := by
        rw [untouched_testing hF2.1, untouched_enableApp hF2.1]
        exact hg
      have hbase : st1.baseDir = st.baseDir := untouched_baseDir hF2.1
      have hall : ∀ kv ∈ ps, kv.2.base.hasApp = true →
          pluginPath st1.baseDir kv.2.base ∈ st1.installedApps := by
        intro kv hkv happ
        have hk := activateIntegrationApp_keeps ps false st kv hkv happ hg
        rw [h] at hk
        simp only [Act.state] at hk
        rw [hbase]
        exact hk
      unfold activateIntegrationApp
      rw [if_pos hg1, addAppsLoop_none ps st1 false hall]
      simp
    · unfold activateIntegrationApp at h
      rw [if_neg hg] at h
      have hst : st1 = st := by
        cases h
        rfl
      subst hst
      unfold activateIntegrationApp
      rw [if_neg hg]
  refine ⟨hmain, ?_, ?_⟩
  · rw [hmain]
    rfl
  · rw [hmain]
    rfl

/-- Witness for C7: binding one app plugin twice — the first call installs
`Alpha`, the second returns the state unchanged. -/
theorem C7_witness :
    activateIntegrationApp c7Plugins false
        (activateIntegrationApp c7Plugins false c5State).state =
      Act.ok (activateIntegrationApp c7Plugins false c5State).state ∧
    (activateIntegrationApp c7Plugins false
        (activateIntegrationApp c7Plugins false c5State).state).state.installedApps =
      (activateIntegrationApp c7Plugins false c5State).state.installedApps ∧
    (activateIntegrationApp c7Plugins false
        (activateIntegrationApp c7Plugins false c5State).state).state.integrationAppsPaths =
      (activateIntegrationApp c7Plugins false c5State).state.integrationAppsPaths :=
  C7_idempotent_binding c7Plugins c5State
    (activateIntegrationApp c7Plugins false c5State).state (by decide)

/-- Witness for C8: a packaged plugin failing from inside `site-packages`
becomes `PluginLoadingError "AlphaDist"`; a local plugin failing from under
the host base directory becomes an unstructured `ValueError`; the structured
error sends the loop into its blacklisted continuation. -/
theorem C8_witness :
    tryReload hotSwap c8WitState =
      Act.err (.pluginLoadingError "AlphaDist" "boom") c8WitState ∧
    tryReload hotSwap c8CexState = Act.err PyError.valueError c8CexState ∧
    loadLoop 1 none (loadEntryState c8LoopState) =
      loadLoop 0 (some "AlphaDist") c8Sp3 :=
  C8_structured_error hotSwap hotSwap c8WitState c8WitState c8CexState
    c8CexState "AlphaDist" "boom" "boom" ["apps.py"]
    ["srv", "inventree", "plugins", "local", "apps.py"] 0 none
    (loadEntryState c8LoopState) c8Sp2 c8Sp3 "AlphaDist" "boom"
    (by decide) (by decide) (by decide) (by decide) (by decide)

/-! ## C1 support: exact characterisation of the two loading passes -/

theorem dictSet_fresh {α : Type} (m : List (String × α)) (k : String) (v : α)
    (h : k ∉ dictKeys m) : dictSet m k v = m ++ [(k, v)] := by
  unfold dictSet
  rw [if_neg (show k ∉ m.map Prod.fst from h)]

theorem dictKeys_append {α : Type} (m1 m2 : List (String × α)) :
    dictKeys (m1 ++ m2) = dictKeys m1 ++ dictKeys m2 := by
  simp [dictKeys]

theorem nodup_mid {A B : List String} {k : String}
    (h : (A ++ k :: B).Nodup) : k ∉ A ∧ k ∉ B ∧ (A ++ B).Nodup := by
  rw [List.nodup_append] at h
  obtain ⟨hA, hkB, hdisj⟩ := h
  rw [List.nodup_cons] at hkB
  refine ⟨fun hk => hdisj hk (List.mem_cons_self k B), hkB.1, ?_⟩
  rw [List.nodup_append]
  exact ⟨hA, hkB.2, fun a ha hb => hdisj ha (List.mem_cons_of_mem _ hb)⟩

theorem alookup_single_ne {α : Type} (k a : String) (v : α) (h : k ≠ a) :
    alookup a [(k, v)] = none := by
  simp [alookup, h]

theorem findFault_none_of (faults : List (String × (List String × String))) :
    ∀ list : List String, (∀ a ∈ list, alookup a faults = none) →
    findFault faults list = none
  | [], _ => rfl
  | a :: rest, h => by
    unfold findFault
    rw [h a (List.mem_cons_self a rest)]
    exact findFault_none_of faults rest
      fun b hb => h b (List.mem_cons_of_mem _ hb)

theorem findFault_single_mem (kf : String) (fb : List String × String) :
    ∀ list : List String, kf ∈ list →
    findFault [(kf, fb)] list = some fb
  | [], hmem => absurd hmem (List.not_mem_nil kf)
  | a :: rest, hmem => by
    unfold findFault
    by_cases hak : kf = a
    · subst hak
      simp [alookup]
    · rw [alookup_single_ne kf a fb hak]
      rcases List.mem_cons.mp hmem with h | h
      · exact absurd h hak
      · exact findFault_single_mem kf fb rest h

theorem hotSwap_ok (st : State)
    (h : findFault st.appFaults st.installedApps = none) :
    hotSwap st = HotRes.ok { st with
      appConfigs := st.installedApps.filterMap fun a =>
        alookup a st.availableApps } := by
  unfold hotSwap
  rw [h]

theorem tryReload_hotSwap_ok (st : State)
    (h : findFault st.appFaults st.installedApps = none) :
    tryReload hotSwap st = Act.ok { st with
      appConfigs := st.installedApps.filterMap fun a =>
        alookup a st.availableApps } := by
  simp only [tryReload, hotSwap_ok st h]

theorem tryReload_hotSwap_fault (m : State) (name fn msg : String)
    (h : findFault m.appFaults m.installedApps =
      some (m.purelib ++ [name, fn], msg)) :
    tryReload hotSwap m = Act.err (.pluginLoadingError name msg) m := by
  simp only [tryReload, hotSwap, h, prefixOfL_append, if_true, List.drop_left]

theorem reloadApps_ok (force : Bool) (st0 : State)
    (h : findFault st0.appFaults st0.installedApps = none) :
    (reloadApps force st0).isOk = true := by
  cases force with
  | false =>
    have h2 : findFault
        ({ st0 with integrationPluginsReloading := true } : State).appFaults
        ({ st0 with
            integrationPluginsReloading := true } : State).installedApps =
        none := h
    simp only [reloadApps, Bool.false_eq_true, if_false,
      tryReload_hotSwap_ok _ h2, Act.isOk]
  | true =>
    have h1 : findFault ({ st0 with appConfigs := [] } : State).appFaults
        ({ st0 with appConfigs := [] } : State).installedApps = none := h
    have h2 : findFault
        ({ { ({ st0 with appConfigs := [] } : State) with
              appConfigs :=
                ({ st0 with appConfigs := [] } : State).installedApps.filterMap
                  fun a =>
                    alookup a
                      ({ st0 with
                          appConfigs := [] } : State).availableApps } with
            integrationPluginsReloading := true } : State).appFaults
        ({ { ({ st0 with appConfigs := [] } : State) with
              appConfigs :=
                ({ st0 with appConfigs := [] } : State).installedApps.filterMap
                  fun a =>
                    alookup a
                      ({ st0 with
                          appConfigs := [] } : State).availableApps } with
            integrationPluginsReloading := true } : State).installedApps =
        none := h
    simp only [reloadApps, if_true, tryReload_hotSwap_ok _ h1,
      tryReload_hotSwap_ok _ h2, Act.isOk]

theorem reloadApps_fault (st0 : State) (name fn msg : String)
    (h : findFault st0.appFaults st0.installedApps =
      some (st0.purelib ++ [name, fn], msg)) :
    reloadApps true st0 =
      Act.err (.pluginLoadingError name msg)
        { st0 with appConfigs := [] } := by
  have h0 : findFault ({ st0 with appConfigs := [] } : State).appFaults
      ({ st0 with appConfigs := [] } : State).installedApps =
      some (({ st0 with appConfigs := [] } : State).purelib ++ [name, fn],
        msg) := h
  simp only [reloadApps, if_true, tryReload_hotSwap_fault _ name fn msg h0]

theorem appSyncTail_ok (m : State)
    (h : findFault m.appFaults m.installedApps = none) :
    (appSyncTail m).isOk = true := by
  have hro := reloadApps_ok false m h
  cases hr : reloadApps false m with
  | err e s1 =>
    rw [hr] at hro
    exact absurd hro (by simp [Act.isOk])
  | ok s1 =>
    simp only [appSyncTail, hr, Act.isOk]

theorem activatePlugins_ok (force : Bool) (st : State)
    (hfault : ∀ a : String,
      (a ∈ st.installedApps ∨ ∃ kv ∈ st.integrationPlugins,
        kv.2.base.hasApp = true ∧ a = pluginPath st.baseDir kv.2.base) →
      alookup a st.appFaults = none) :
    (activatePlugins force st).isOk = true := by
  unfold activatePlugins activateIntegrationApp
  have hgs := activateGlobalSettings_frames st.integrationPlugins st
  set sG := activateGlobalSettings st.integrationPlugins st with hsG
  obtain ⟨new, c', hEq, hProps, hNodup⟩ :=
    addAppsLoop_spec st.integrationPlugins sG false
  have hfind : findFault sG.appFaults (sG.installedApps ++ new) = none := by
    rw [untouched_appFaults hgs.1.1]
    apply findFault_none_of
    intro a ha
    rcases List.mem_append.mp ha with h | h
    · rw [apps_installed hgs.2] at h
      exact hfault a (Or.inl h)
    · obtain ⟨hni, kv, hkv, happv, haeq⟩ := hProps a h
      rw [untouched_baseDir hgs.1.1] at haeq
      exact hfault a (Or.inr ⟨kv, hkv, happv, haeq⟩)
  by_cases hg : (sG.pluginTesting || sG.enableApp) = true
  case neg =>
    rw [if_neg hg]
    rfl
  case pos =>
    rw [if_pos hg]
    simp only [hEq]
    by_cases hcf : (c' || force) = true
    case neg =>
      rw [if_neg hcf]
      rfl
    case pos =>
      rw [if_pos hcf]
      set L : State :=
        { sG with
          installedApps := sG.installedApps ++ new,
          integrationAppsPaths := sG.integrationAppsPaths ++ new }
        with hLdef
      by_cases hlf : (L.integrationAppsLoading || force) = true
      case pos =>
        rw [if_pos hlf]
        have hM : findFault
            ({ L with integrationAppsLoading := false } : State).appFaults
            ({ L with
                integrationAppsLoading := false } : State).installedApps =
            none := hfind
        have hro := reloadApps_ok true
          { L with integrationAppsLoading := false } hM
        cases hr : reloadApps true
            { L with integrationAppsLoading := false } with
        | err e s2 =>
          rw [hr] at hro
          exact absurd hro (by simp [Act.isOk])
        | ok s2 =>
          simp only [hr]
          have hfr := reloadApps_frames true
            { L with integrationAppsLoading := false }
          rw [hr] at hfr
          simp only [Act.state] at hfr
          have hs2 : findFault s2.appFaults s2.installedApps = none := by
            rw [untouched_appFaults hfr.1.1, apps_installed hfr.2]
            exact hfind
          exact appSyncTail_ok s2 hs2
      case neg =>
        rw [if_neg hlf]
        have hL : findFault L.appFaults L.installedApps = none := hfind
        exact appSyncTail_ok L hL

theorem activatePlugins_empty_reg (force : Bool) (st : State)
    (h : st.integrationPlugins = []) :
    (activatePlugins force st).state.installedApps = st.installedApps ∧
    (activatePlugins force st).state.integrationAppsPaths =
      st.integrationAppsPaths := by
  unfold activatePlugins
  have hgs := activateGlobalSettings_frames st.integrationPlugins st
  obtain ⟨hF2, new, hi, hp, hprops, hnd⟩ :=
    activateIntegrationApp_spec st.integrationPlugins force
      (activateGlobalSettings st.integrationPlugins st)
  have hnew : new = [] := by
    cases new with
    | nil => rfl
    | cons q qs =>
      obtain ⟨-, kv, hkv, -, -⟩ := hprops q (List.mem_cons_self q qs)
      rw [h] at hkv
      exact absurd hkv (List.not_mem_nil kv)
  subst hnew
  constructor
  · rw [hi, List.append_nil, apps_installed hgs.2]
  · rw [hp, List.append_nil, apps_paths hgs.2]

theorem activatePlugins_fault (st : State) (kf name fn msg : String)
    (hg : st.pluginTesting = true)
    (hload : st.integrationAppsLoading = true)
    (hfaults : st.appFaults = [(kf, (st.purelib ++ [name, fn], msg))])
    (hkv : ∃ kv ∈ st.integrationPlugins, kv.2.base.hasApp = true ∧
      pluginPath st.baseDir kv.2.base = kf)
    (hnotin : kf ∉ st.installedApps) :
    ∃ stE, activatePlugins false st =
      Act.err (.pluginLoadingError name msg) stE := by
  unfold activatePlugins activateIntegrationApp
  have hgs := activateGlobalSettings_frames st.integrationPlugins st
  set sG := activateGlobalSettings st.integrationPlugins st with hsG
  obtain ⟨kv, hkvm, happv, hpath⟩ := hkv
  have hgate : (sG.pluginTesting || sG.enableApp) = true := by
    rw [untouched_testing hgs.1.1, hg, Bool.true_or]
  rw [if_pos hgate]
  obtain ⟨new, c', hEq, hProps, hNodup⟩ :=
    addAppsLoop_spec st.integrationPlugins sG false
  have hchanged : c' = true := by
    have h := addAppsLoop_changed st.integrationPlugins sG false kv hkvm happv
      (by
        rw [untouched_baseDir hgs.1.1, hpath, apps_installed hgs.2]
        exact hnotin)
    rw [hEq] at h
    exact h
  simp only [hEq]
  rw [if_pos (show (c' || false) = true by rw [hchanged]; rfl)]
  set L : State :=
    { sG with
      installedApps := sG.installedApps ++ new,
      integrationAppsPaths := sG.integrationAppsPaths ++ new }
    with hLdef
  have hlf : (L.integrationAppsLoading || false) = true := by
    show (sG.integrationAppsLoading || false) = true
    rw [apps_loading hgs.2, hload]
    rfl
  rw [if_pos hlf]
  have hmem : kf ∈ L.installedApps := by
    have h := addAppsLoop_mem st.integrationPlugins sG false kv hkvm happv
    rw [hEq] at h
    rw [untouched_baseDir hgs.1.1, hpath] at h
    exact h
  have hffM : findFault
      ({ L with integrationAppsLoading := false } : State).appFaults
      ({ L with integrationAppsLoading := false } : State).installedApps =
      some (({ L with
          integrationAppsLoading := false } : State).purelib ++ [name, fn],
        msg) := by
    show findFault sG.appFaults L.installedApps =
      some (sG.purelib ++ [name, fn], msg)
    rw [untouched_appFaults hgs.1.1, untouched_purelib hgs.1.1, hfaults]
    exact findFault_single_mem kf _ L.installedApps hmem
  refine ⟨{ ({ L with integrationAppsLoading := false } : State) with
    appConfigs := [] }, ?_⟩
  rw [reloadApps_fault { L with integrationAppsLoading := false }
    name fn msg hffM]

theorem initLoop_fresh : ∀ (ps : List Plugin) (st : State),
    st.pluginTesting = true → st.dbDown = false →
    (∀ p ∈ ps, p.instFails = false) →
    (∀ p ∈ ps, ∀ r ∈ st.db, r.key ≠ plugKey p) →
    (ps.map plugKey).Nodup →
    (dictKeys st.integrationPlugins ++ ps.map plugKey).Nodup →
    ∃ pk', initLoop none ps st = Act.ok
      { st with
        integrationPlugins :=
          st.integrationPlugins ++ mkActives ps st.nextPk,
        db := st.db ++ mkRecs ps st.nextPk,
        nextPk := pk' }
  | [], st, _, _, _, _, _, _ => ⟨st.nextPk, by
      simp only [initLoop, mkActives, mkRecs, List.append_nil]⟩
  | p :: rest, st, h1, h2, h4, hdbf, hkeys, hreg => by
    rw [List.map_cons] at hkeys hreg
    have hio := initOne_fresh none p st h1 h2
      (fun r hr => hdbf p (List.mem_cons_self p rest) r hr)
      (h4 p (List.mem_cons_self p rest)) rfl
    rw [dictSet_fresh _ _ _
      (show instanceSlug p ∉ dictKeys st.integrationPlugins from
        (nodup_mid hreg).1)] at hio
    rw [List.nodup_cons] at hkeys
    obtain ⟨pk2, hIH⟩ := initLoop_fresh rest
      { st with
        integrationPlugins := st.integrationPlugins ++
          [(instanceSlug p, mkActive p (some st.nextPk))],
        db := st.db ++ [⟨st.nextPk, plugKey p, p.pluginName, false⟩],
        nextPk := st.nextPk + 1 }
      h1 h2
      (fun q hq => h4 q (List.mem_cons_of_mem _ hq))
      (by
        intro q hq r hr
        rcases List.mem_append.mp hr with h | h
        · exact hdbf q (List.mem_cons_of_mem _ hq) r h
        · rw [List.mem_singleton.mp h]
          show plugKey p ≠ plugKey q
          exact fun heq => hkeys.1 (heq ▸ List.mem_map_of_mem plugKey hq))
      hkeys.2
      (by
        rw [show dictKeys (st.integrationPlugins ++
            [(instanceSlug p, mkActive p (some st.nextPk))]) =
            dictKeys st.integrationPlugins ++ [plugKey p] from by
          simp [dictKeys, instanceSlug], List.append_assoc]
        exact hreg)
    refine ⟨pk2, ?_⟩
    simp only [initLoop, hio]
    rw [hIH]
    simp only [mkActives, mkRecs]
    rw [List.append_assoc, List.append_assoc]
    rfl

theorem mkRecs_find : ∀ (qs : List Plugin) (k : Nat) (p : Plugin),
    p ∈ qs → (qs.map plugKey).Nodup →
    ∃ r, dbRecFor (mkRecs qs k) p = some r
  | [], _, p, hmem, _ => absurd hmem (List.not_mem_nil p)
  | q :: rest, k, p, hmem, hnd => by
    rw [List.map_cons, List.nodup_cons] at hnd
    rcases List.mem_cons.mp hmem with rfl | hmem'
    · refine ⟨⟨k, plugKey p, p.pluginName, false⟩, ?_⟩
      simp only [dbRecFor, mkRecs]
      rw [List.find?_cons_of_pos]
      simp [plugKey]
    · obtain ⟨r, hr⟩ := mkRecs_find rest (k + 1) p hmem' hnd.2
      refine ⟨r, ?_⟩
      simp only [dbRecFor, mkRecs]
      rw [List.find?_cons_of_neg]
      · simpa [dbRecFor] using hr
      · have hne : plugKey q ≠ plugKey p :=
          fun h => hnd.1 (h ▸ List.mem_map_of_mem plugKey hmem')
        simp only [Bool.and_eq_true, decide_eq_true_eq, not_and]
        intro h
        exact absurd h hne

theorem mkActives_mem : ∀ (qs : List Plugin) (k : Nat) (f : Plugin),
    f ∈ qs → ∃ j, (plugKey f, mkActive f (some j)) ∈ mkActives qs k
  | [], _, f, hmem => absurd hmem (List.not_mem_nil f)
  | q :: rest, k, f, hmem => by
    rcases List.mem_cons.mp hmem with rfl | hmem'
    · exact ⟨k, List.mem_cons_self _ _⟩
    · obtain ⟨j, hj⟩ := mkActives_mem rest (k + 1) f hmem'
      exact ⟨j, List.mem_cons_of_mem _ hj⟩

theorem initLoop_pass2 (d : String) : ∀ (ps : List Plugin) (st : State),
    st.pluginTesting = true → st.dbDown = false →
    (∀ p ∈ ps, ∃ r, dbRecFor st.db p = some r) →
    (∀ p ∈ ps, p.instFails = false) →
    (dictKeys st.integrationPlugins ++ ps.map plugKey).Nodup →
    (dictKeys st.integrationPluginsInactive ++ ps.map plugKey).Nodup →
    initLoop (some d) ps st = Act.ok
      { st with
        integrationPlugins :=
          st.integrationPlugins ++ pass2Actives st.db d ps,
        integrationPluginsInactive :=
          st.integrationPluginsInactive ++ pass2Inactive st.db d ps }
  | [], st, _, _, _, _, _, _ => by
      simp only [initLoop, pass2Actives, pass2Inactive, List.append_nil]
  | p :: rest, st, h1, h2, h3, h4, h5, h6 => by
    rw [List.map_cons] at h5 h6
    obtain ⟨r, hr⟩ := h3 p (List.mem_cons_self p rest)
    have hr' := hr
    simp only [dbRecFor] at hr'
    by_cases hc : p.className = d
    · have hbeq : (p.className == d) = true := beq_iff_eq.mpr hc
      have hio : initOne (some d) p st = Act.ok
          { st with
            integrationPluginsInactive :=
              dictSet st.integrationPluginsInactive
                (slugify (p.pluginSlug.getD p.pluginName)) (some r) } := by
        simp only [initOne, getOrCreate, h2, Bool.false_eq_true, if_false,
          hr', initOneBody, h1, Bool.true_or, if_true, hbeq]
      rw [dictSet_fresh _ _ _
        (show slugify (p.pluginSlug.getD p.pluginName) ∉
          dictKeys st.integrationPluginsInactive from (nodup_mid h6).1)] at hio
      have hIH := initLoop_pass2 d rest
        { st with
          integrationPluginsInactive :=
            st.integrationPluginsInactive ++
              [(slugify (p.pluginSlug.getD p.pluginName), some r)] }
        h1 h2
        (fun q hq => h3 q (List.mem_cons_of_mem _ hq))
        (fun q hq => h4 q (List.mem_cons_of_mem _ hq))
        (nodup_mid h5).2.2
        (by
          rw [show dictKeys (st.integrationPluginsInactive ++
              [(slugify (p.pluginSlug.getD p.pluginName), some r)]) =
              dictKeys st.integrationPluginsInactive ++ [plugKey p] from by
            simp [dictKeys, plugKey], List.append_assoc]
          exact h6)
      simp only [initLoop, hio]
      rw [hIH]
      simp only [pass2Actives, pass2Inactive, if_pos hc, hr]
      rw [List.append_assoc]
      rfl
    · have hbeq : (p.className == d) = false := beq_eq_false_iff_ne.mpr hc
      have hio : initOne (some d) p st = Act.ok
          { st with
            integrationPlugins :=
              dictSet st.integrationPlugins (instanceSlug p)
                (mkActive p (some r.pk)) } := by
        simp only [initOne, getOrCreate, h2, Bool.false_eq_true, if_false,
          hr', initOneBody, h1, Bool.true_or, if_true, hbeq,
          h4 p (List.mem_cons_self p rest), mkActive, instanceSlug,
          Option.map_some']
      rw [dictSet_fresh _ _ _
        (show instanceSlug p ∉ dictKeys st.integrationPlugins from
          (nodup_mid h5).1)] at hio
      have hIH := initLoop_pass2 d rest
        { st with
          integrationPlugins :=
            st.integrationPlugins ++
              [(instanceSlug p, mkActive p (some r.pk))] }
        h1 h2
        (fun q hq => h3 q (List.mem_cons_of_mem _ hq))
        (fun q hq => h4 q (List.mem_cons_of_mem _ hq))
        (by
          rw [show dictKeys (st.integrationPlugins ++
              [(instanceSlug p, mkActive p (some r.pk))]) =
              dictKeys st.integrationPlugins ++ [plugKey p] from by
            simp [dictKeys, instanceSlug], List.append_assoc]
          exact h5)
        (nodup_mid h6).2.2
      simp only [initLoop, hio]
      rw [hIH]
      simp only [pass2Actives, pass2Inactive, if_neg hc, hr,
        Option.map_some']
      rw [List.append_assoc]
      rfl

theorem pass2Actives_append (db : List PluginConfigRec) (d : String) :
    ∀ xs ys : List Plugin, pass2Actives db d (xs ++ ys) =
      pass2Actives db d xs ++ pass2Actives db d ys
  | [], _ => rfl
  | x :: xs, ys => by
    simp only [List.cons_append, pass2Actives, List.append_eq]
    by_cases hx : x.className = d
    · rw [if_pos hx, if_pos hx]
      exact pass2Actives_append db d xs ys
    · rw [if_neg hx, if_neg hx]
      rw [pass2Actives_append db d xs ys]
      rfl

theorem pass2Inactive_append (db : List PluginConfigRec) (d : String) :
    ∀ xs ys : List Plugin, pass2Inactive db d (xs ++ ys) =
      pass2Inactive db d xs ++ pass2Inactive db d ys
  | [], _ => rfl
  | x :: xs, ys => by
    simp only [List.cons_append, pass2Inactive, List.append_eq]
    by_cases hx : x.className = d
    · rw [if_pos hx, if_pos hx]
      rw [pass2Inactive_append db d xs ys]
      rfl
    · rw [if_neg hx, if_neg hx]
      exact pass2Inactive_append db d xs ys

theorem pass2Actives_unblocked (db : List PluginConfigRec) (d : String) :
    ∀ xs : List Plugin, (∀ p ∈ xs, p.className ≠ d) →
    pass2Actives db d xs = xs.map fun p =>
      (plugKey p, mkActive p ((dbRecFor db p).map (·.pk)))
  | [], _ => rfl
  | x :: xs, h => by
    simp only [pass2Actives, List.map_cons]
    rw [if_neg (h x (List.mem_cons_self x xs))]
    rw [pass2Actives_unblocked db d xs
      fun p hp => h p (List.mem_cons_of_mem _ hp)]

theorem pass2Inactive_unblocked (db : List PluginConfigRec) (d : String) :
    ∀ xs : List Plugin, (∀ p ∈ xs, p.className ≠ d) →
    pass2Inactive db d xs = []
  | [], _ => rfl
  | x :: xs, h => by
    simp only [pass2Inactive]
    rw [if_neg (h x (List.mem_cons_self x xs))]
    exact pass2Inactive_unblocked db d xs
      fun p hp => h p (List.mem_cons_of_mem _ hp)

theorem pass2Actives_keys (db : List PluginConfigRec) (d : String)
    (xs : List Plugin) (h : ∀ p ∈ xs, p.className ≠ d) :
    dictKeys (pass2Actives db d xs) = xs.map plugKey := by
  rw [pass2Actives_unblocked db d xs h]
  simp [dictKeys, List.map_map, Function.comp]

theorem pass2Actives_base : ∀ (db : List PluginConfigRec) (d : String)
    (qs : List Plugin) (kv : String × ActivePlugin),
    kv ∈ pass2Actives db d qs →
    ∃ p ∈ qs, p.className ≠ d ∧ kv.2.base = p
  | _, _, [], kv, h => absurd h (List.not_mem_nil kv)
  | db, d, q :: rest, kv, h => by
    simp only [pass2Actives] at h
    by_cases hq : q.className = d
    · rw [if_pos hq] at h
      obtain ⟨p, hp, hpc, hpb⟩ := pass2Actives_base db d rest kv h
      exact ⟨p, List.mem_cons_of_mem _ hp, hpc, hpb⟩
    · rw [if_neg hq] at h
      rcases List.mem_cons.mp h with rfl | h'
      · exact ⟨q, List.mem_cons_self _ _, hq, rfl⟩
      · obtain ⟨p, hp, hpc, hpb⟩ := pass2Actives_base db d rest kv h'
        exact ⟨p, List.mem_cons_of_mem _ hp, hpc, hpb⟩

/-- C1 (amended): fault isolation holds for app-module faults, not for
constructor faults.  For a discovered set `l ++ f :: r` in which exactly the
plugin `f` has an app whose import raises (from a frame inside its installed
distribution) and no constructor raises, `load_plugins` completes without
raising after one blacklist-and-restart transition: the active registry then
holds exactly the other plugins, in discovery order, and `f` appears only in
the inactive map.  (A constructor that raises instead aborts the whole load —
see the counterexample.) -/
theorem C1_app_fault_isolation (l r : List Plugin) (f : Plugin)
    (base purelib baseDir : List String) (fn msg : String) (fuel : Nat)
    (hinst : ∀ p ∈ l ++ f :: r, p.instFails = false)
    (hkeys : ((l ++ f :: r).map plugKey).Nodup)
    (happf : f.hasApp = true)
    (hcl : ∀ p ∈ l ++ r, p.className ≠ f.className)
    (hpdiff : ∀ p ∈ l ++ r, pluginPath baseDir p ≠ pluginPath baseDir f)
    (hbase : ∀ a ∈ base, a ≠ pluginPath baseDir f) :
    (loadPlugins (fuel + 2) (mkTestState base purelib baseDir (l ++ f :: r)
        [(pluginPath baseDir f,
          (purelib ++ [f.className, fn], msg))])).isOk = true ∧
    activeKeys (loadPlugins (fuel + 2) (mkTestState base purelib baseDir
        (l ++ f :: r) [(pluginPath baseDir f,
          (purelib ++ [f.className, fn], msg))])).state =
      (l ++ r).map plugKey ∧
    inactiveKeys (loadPlugins (fuel + 2) (mkTestState base purelib baseDir
        (l ++ f :: r) [(pluginPath baseDir f,
          (purelib ++ [f.className, fn], msg))])).state = [plugKey f] ∧
    plugKey f ∉ activeKeys (loadPlugins (fuel + 2) (mkTestState base purelib
        baseDir (l ++ f :: r) [(pluginPath baseDir f,
          (purelib ++ [f.className, fn], msg))])).state := by
  set sT := mkTestState base purelib baseDir (l ++ f :: r)
    [(pluginPath baseDir f, (purelib ++ [f.className, fn], msg))] with hsT
  have hsE : loadEntryState sT = { sT with maintenance := true } := rfl
  set sE : State := { sT with maintenance := true } with hsEdef
  obtain ⟨pk1, hInit1⟩ := initLoop_fresh sE.plugins sE rfl rfl
    (fun p hp => hinst p hp)
    (fun p _ r hr => absurd hr (List.not_mem_nil r))
    hkeys hkeys
  set S1 : State :=
    { sE with
      integrationPlugins :=
        sE.integrationPlugins ++ mkActives sE.plugins sE.nextPk,
      db := sE.db ++ mkRecs sE.plugins sE.nextPk,
      nextPk := pk1 }
    with hS1def
  obtain ⟨jf, hjf⟩ := mkActives_mem sE.plugins sE.nextPk f
    (List.mem_append_right l (List.mem_cons_self f r))
  obtain ⟨sE2, hAct1⟩ := activatePlugins_fault S1
    (pluginPath baseDir f) f.className fn msg rfl rfl rfl
    ⟨(plugKey f, mkActive f (some jf)), hjf, happf, rfl⟩
    (fun hmem => hbase (pluginPath baseDir f) hmem rfl)
  have hPass : loadPass none sE =
      Act.err (.pluginLoadingError f.className msg) sE2 := by
    unfold loadPass initPlugins
    simp only [hInit1]
    exact hAct1
  have hspec1 := activatePlugins_spec false S1
  rw [hAct1] at hspec1
  simp only [Act.state] at hspec1
  obtain ⟨hF2a, new1, hi1, hp1, hfr1, hnd1⟩ := hspec1
  have hinv : AppsInv S1.installedApps
      { sE2 with
        pluginErrors := sE2.pluginErrors ++ [(f.className, msg)] } := by
    refine ⟨?_, ?_, ?_⟩
    · show sE2.installedApps = S1.installedApps ++ sE2.integrationAppsPaths
      rw [hi1, hp1]
      rfl
    · show sE2.integrationAppsPaths.Nodup
      rw [hp1]
      exact hnd1
    · show ∀ p ∈ sE2.integrationAppsPaths, p ∉ S1.installedApps
      rw [hp1]
      exact fun q hq => hfr1 q hq
  obtain ⟨hci, hcp⟩ := cleanInstalledApps_inv
    (show AppsInv S1.installedApps (cleanRegistry
      { sE2 with
        pluginErrors := sE2.pluginErrors ++ [(f.className, msg)] })
      from AppsInv_of_appsOf rfl hinv)
  have hok1 := activatePlugins_ok true (cleanInstalledApps (cleanRegistry
      { sE2 with
        pluginErrors := sE2.pluginErrors ++ [(f.className, msg)] }))
    (by
      intro a ha
      rcases ha with ha | ⟨kv, hkv, -, -⟩
      · rw [hci] at ha
        have hne : a ≠ pluginPath baseDir f := hbase a ha
        rw [show (cleanInstalledApps (cleanRegistry
            { sE2 with pluginErrors :=
              sE2.pluginErrors ++ [(f.className, msg)] })).appFaults =
            sE2.appFaults from rfl,
          untouched_appFaults hF2a.1]
        exact alookup_single_ne _ a _ (fun h => hne h.symm)
      · exact absurd hkv (List.not_mem_nil kv))
  cases hr1 : activatePlugins true (cleanInstalledApps (cleanRegistry
      { sE2 with
        pluginErrors := sE2.pluginErrors ++ [(f.className, msg)] })) with
  | err e s3x =>
    rw [hr1] at hok1
    exact absurd hok1 (by simp [Act.isOk])
  | ok S3 =>
    have hspec2 := activatePlugins_spec true (cleanInstalledApps (cleanRegistry
      { sE2 with
        pluginErrors := sE2.pluginErrors ++ [(f.className, msg)] }))
    rw [hr1] at hspec2
    simp only [Act.state] at hspec2
    obtain ⟨hF2b, new2, hi2x, hp2x, hfr2x, hnd2x⟩ := hspec2
    have hU3 : untouchedOf S3 = untouchedOf sE := by
      rw [hF2b.1]
      rw [show untouchedOf (cleanInstalledApps (cleanRegistry
        { sE2 with pluginErrors :=
          sE2.pluginErrors ++ [(f.className, msg)] })) =
        untouchedOf sE2 from rfl, hF2a.1]
      rfl
    have hreg3 : S3.integrationPlugins = [] := by
      rw [reg_integrationPlugins hF2b.2]
      rfl
    have hinact3 : S3.integrationPluginsInactive = [] := by
      rw [reg_inactive hF2b.2]
      rfl
    have hdb3 : S3.db = mkRecs sE.plugins sE.nextPk := by
      rw [reg_db hF2b.2]
      rw [show (cleanInstalledApps (cleanRegistry
        { sE2 with pluginErrors :=
          sE2.pluginErrors ++ [(f.className, msg)] })).db = sE2.db from rfl,
        reg_db hF2a.2]
      rfl
    have hemp := activatePlugins_empty_reg true (cleanInstalledApps
      (cleanRegistry { sE2 with pluginErrors :=
        sE2.pluginErrors ++ [(f.className, msg)] })) rfl
    rw [hr1] at hemp
    simp only [Act.state] at hemp
    have hIA3 : S3.installedApps = S1.installedApps := hemp.1.trans hci
    have hInit2 := initLoop_pass2 f.className S3.plugins S3
      (by rw [untouched_testing hU3]; rfl)
      (by rw [untouched_dbDown hU3]; rfl)
      (by
        intro p hp
        rw [untouched_plugins hU3] at hp
        rw [hdb3]
        exact mkRecs_find sE.plugins sE.nextPk p hp hkeys)
      (by
        intro p hp
        rw [untouched_plugins hU3] at hp
        exact hinst p hp)
      (by
        rw [hreg3, untouched_plugins hU3]
        exact hkeys)
      (by
        rw [hinact3, untouched_plugins hU3]
        exact hkeys)
    set S4 : State :=
      { S3 with
        integrationPlugins :=
          S3.integrationPlugins ++
            pass2Actives S3.db f.className S3.plugins,
        integrationPluginsInactive :=
          S3.integrationPluginsInactive ++
            pass2Inactive S3.db f.className S3.plugins }
      with hS4def
    have hok2 := activatePlugins_ok false S4
      (by
        intro a ha
        have hfne : a ≠ pluginPath baseDir f := by
          rcases ha with ha | ⟨kv, hkv, -, hkveq⟩
          · have ha' : a ∈ S3.installedApps := ha
            rw [hIA3] at ha'
            exact hbase a ha'
          · have hkv' : kv ∈ S3.integrationPlugins ++
                pass2Actives S3.db f.className S3.plugins := hkv
            rcases List.mem_append.mp hkv' with hl | hr2
            · rw [hreg3] at hl
              exact absurd hl (List.not_mem_nil kv)
            · obtain ⟨p, hpmem, hpcl, hpb⟩ :=
                pass2Actives_base S3.db f.className S3.plugins kv hr2
              rw [untouched_plugins hU3] at hpmem
              have hplr : p ∈ l ++ r := by
                rcases List.mem_append.mp hpmem with h | h
                · exact List.mem_append_left r h
                · rcases List.mem_cons.mp h with rfl | h'
                  · exact absurd rfl hpcl
                  · exact List.mem_append_right l h'
              rw [hkveq, hpb]
              rw [show (S4 : State).baseDir = S3.baseDir from rfl,
                untouched_baseDir hU3]
              exact hpdiff p hplr
        show alookup a S4.appFaults = none
        rw [show (S4 : State).appFaults = S3.appFaults from rfl,
          untouched_appFaults hU3]
        exact alookup_single_ne _ a _ (fun h => hfne h.symm))
    cases hr2 : activatePlugins false S4 with
    | err e s5x =>
      rw [hr2] at hok2
      exact absurd hok2 (by simp [Act.isOk])
    | ok S5 =>
      have hPass2 : loadPass (some f.className) S3 = Act.ok S5 := by
        unfold loadPass initPlugins
        simp only [hInit2]
        exact hr2
      have hTot : loadPlugins (fuel + 2) sT =
          LRes.ok { S5 with maintenance := false } := by
        unfold loadPlugins
        rw [hsE]
        simp only [loadLoop, hPass, hr1, hPass2]
        rfl
      have hreg5 : S5.integrationPlugins = S4.integrationPlugins := by
        have h := (activatePlugins_spec false S4).1
        rw [hr2] at h
        simp only [Act.state] at h
        exact reg_integrationPlugins h.2
      have hinact5 : S5.integrationPluginsInactive =
          S4.integrationPluginsInactive := by
        have h := (activatePlugins_spec false S4).1
        rw [hr2] at h
        simp only [Act.state] at h
        exact reg_inactive h.2
      have hAct5 : dictKeys S5.integrationPlugins = (l ++ r).map plugKey := by
        rw [hreg5]
        show dictKeys (S3.integrationPlugins ++
          pass2Actives S3.db f.className S3.plugins) = _
        rw [hreg3, untouched_plugins hU3]
        show dictKeys (([] : List (String × ActivePlugin)) ++
          pass2Actives S3.db f.className (l ++ f :: r)) = _
        rw [List.nil_append, pass2Actives_append,
          show pass2Actives S3.db f.className (f :: r) =
            pass2Actives S3.db f.className r from by
              simp only [pass2Actives, eq_self_iff_true, if_true],
          dictKeys_append,
          pass2Actives_keys S3.db f.className l
            (fun p hp => hcl p (List.mem_append_left r hp)),
          pass2Actives_keys S3.db f.className r
            (fun p hp => hcl p (List.mem_append_right l hp)),
          List.map_append]
      have hInact5 : dictKeys S5.integrationPluginsInactive = [plugKey f] := by
        rw [hinact5]
        show dictKeys (S3.integrationPluginsInactive ++
          pass2Inactive S3.db f.className S3.plugins) = _
        rw [hinact3, untouched_plugins hU3]
        show dictKeys (([] : List (String × Option PluginConfigRec)) ++
          pass2Inactive S3.db f.className (l ++ f :: r)) = _
        rw [List.nil_append, pass2Inactive_append,
          pass2Inactive_unblocked S3.db f.className l
            (fun p hp => hcl p (List.mem_append_left r hp)),
          show pass2Inactive S3.db f.className (f :: r) =
            (plugKey f, dbRecFor S3.db f) ::
              pass2Inactive S3.db f.className r from by
                simp only [pass2Inactive, eq_self_iff_true, if_true],
          pass2Inactive_unblocked S3.db f.className r
            (fun p hp => hcl p (List.mem_append_right l hp)),
          List.nil_append]
        rfl
      have hnotmem : plugKey f ∉ (l ++ r).map plugKey := by
        rw [List.map_append] at hkeys ⊢
        rw [List.map_cons] at hkeys
        have h := nodup_mid hkeys
        intro hmem
        rcases List.mem_append.mp hmem with hm | hm
        · exact h.1 hm
        · exact h.2.1 hm
      refine ⟨?_, ?_, ?_, ?_⟩
      · rw [hTot]
        rfl
      · rw [hTot]
        exact hAct5
      · rw [hTot]
        exact hInact5
      · rw [hTot]
        rw [show activeKeys
            (LRes.ok { S5 with maintenance := false }).state =
          dictKeys S5.integrationPlugins from rfl, hAct5]
        exact hnotmem

/-- Counterexample to C1 as stated: with two discovered plugins of which
exactly one raises during instantiation (`plugin()`, apps.py 190), the
exception is not caught anywhere in `load_plugins` — the load aborts instead
of isolating the faulting plugin. -/
theorem C1_cex :
    (loadPlugins 2 c1CexState).error =
      some (.genericError "instantiation") ∧
    (loadPlugins 2 c1CexState).isOk = false := by
  decide

/-- Witness for C1 at a concrete instance: of two packaged plugins, `Alpha`'s
app raises on import from inside its distribution; the load completes with
`beta` active and `alpha` only inactive. -/
theorem C1_witness :
    (loadPlugins (0 + 2) (mkTestState demoBase demoPurelib demoBaseDir
        ([] ++ plugAlpha :: [plugBeta])
        [(pluginPath demoBaseDir plugAlpha,
          (demoPurelib ++ [plugAlpha.className, "apps.py"],
            "boom"))])).isOk = true ∧
    activeKeys (loadPlugins (0 + 2) (mkTestState demoBase demoPurelib
        demoBaseDir ([] ++ plugAlpha :: [plugBeta])
        [(pluginPath demoBaseDir plugAlpha,
          (demoPurelib ++ [plugAlpha.className, "apps.py"],
            "boom"))])).state = ([] ++ [plugBeta]).map plugKey ∧
    inactiveKeys (loadPlugins (0 + 2) (mkTestState demoBase demoPurelib
        demoBaseDir ([] ++ plugAlpha :: [plugBeta])
        [(pluginPath demoBaseDir plugAlpha,
          (demoPurelib ++ [plugAlpha.className, "apps.py"],
            "boom"))])).state = [plugKey plugAlpha] ∧
    plugKey plugAlpha ∉ activeKeys (loadPlugins (0 + 2) (mkTestState demoBase
        demoPurelib demoBaseDir ([] ++ plugAlpha :: [plugBeta])
        [(pluginPath demoBaseDir plugAlpha,
          (demoPurelib ++ [plugAlpha.className, "apps.py"],
            "boom"))])).state :=
  C1_app_fault_isolation [] [plugBeta] plugAlpha demoBase demoPurelib
    demoBaseDir "apps.py" "boom" 0 (by decide) (by decide) (by decide)
    (by decide) (by decide) (by decide)

/-! ## C2 — progress of the retry/blacklist loop -/

/-- The first pass over the two-faulter test state blacklists `AlphaDist` and
recovers into the periodic state. -/
theorem c2Entry (n : Nat) :
    loadLoop (n + 1) none (loadEntryState c2TestState) =
      loadLoop n (some "AlphaDist") (c2Cycle [("AlphaDist", "boom")] 1) := rfl

/-- With `AlphaDist` blacklisted, the next pass faults on `BetaDist`: the
single-slot blacklist forgets `AlphaDist` and the cycle state recurs, with
only the error log and the rebuild counter growing. -/
theorem c2StepA (n : Nat) (e : List (String × String)) (u : Nat) :
    loadLoop (n + 1) (some "AlphaDist") (c2Cycle e u) =
      loadLoop n (some "BetaDist")
        (c2Cycle (e ++ [("BetaDist", "crash")]) (u + 1)) := rfl

/-- Symmetrically, with `BetaDist` blacklisted the pass faults on `AlphaDist`
again. -/
theorem c2StepB (n : Nat) (e : List (String × String)) (u : Nat) :
    loadLoop (n + 1) (some "BetaDist") (c2Cycle e u) =
      loadLoop n (some "AlphaDist")
        (c2Cycle (e ++ [("AlphaDist", "boom")]) (u + 1)) := rfl

/-- From either periodic state the loop never returns, whatever the fuel. -/
theorem c2Cycle_diverges : ∀ (n : Nat) (e : List (String × String)) (u : Nat),
    (loadLoop n (some "AlphaDist") (c2Cycle e u)).isNoFuel = true ∧
    (loadLoop n (some "BetaDist") (c2Cycle e u)).isNoFuel = true
  | 0, _, _ => ⟨rfl, rfl⟩
  | n + 1, e, u => by
    constructor
    · rw [c2StepA]
      exact (c2Cycle_diverges n _ _).2
    · rw [c2StepB]
      exact (c2Cycle_diverges n _ _).1

/-- Under test configuration the two-faulter load never terminates. -/
theorem c2_test_never_terminates (fuel : Nat) :
    (loadPlugins fuel c2TestState).isNoFuel = true := by
  cases fuel with
  | zero => rfl
  | succ n =>
    unfold loadPlugins
    rw [c2Entry n]
    have h := (c2Cycle_diverges n [("AlphaDist", "boom")] 1).1
    cases hl : loadLoop n (some "AlphaDist")
        (c2Cycle [("AlphaDist", "boom")] 1) with
    | ok s =>
      rw [hl] at h
      exact absurd h (by simp [LRes.isNoFuel])
    | err e s =>
      rw [hl] at h
      exact absurd h (by simp [LRes.isNoFuel])
    | noFuel s => rfl

/-- Counterexample to C2 as stated: with `N = 2` discovered plugins whose apps
both fail on import, under test configuration the loading loop is still
running after `N + 1 = 3` passes — a blacklisted plugin does not stay
excluded, because the blacklist is a single overwritten marker. -/
theorem C2_cex :
    (loadPlugins 3 c2TestState).isNoFuel = true ∧
    (loadPlugins 3 c2TestState).isOk = false := by
  decide

/-- C2 (amended): the blacklist is a single variable overwritten on each
failure, not an accumulating set, so a pass skips only the most recently
blacklisted plugin.  Under test configuration the database-disable step is
skipped and two plugins whose apps both fail alternate blacklists forever:
`load_plugins` never terminates.  Outside test configuration each failure
additionally disables the offending row, so the same scenario terminates
within `N + 1 = 3` passes (and not within 2), with both plugins inactive and
both rows disabled. -/
theorem C2_blacklist_progress :
    (∀ fuel : Nat, (loadPlugins fuel c2TestState).isNoFuel = true) ∧
    (loadPlugins 3 c2ProdState).isOk = true ∧
    (loadPlugins 2 c2ProdState).isOk = false ∧
    activeKeys (loadPlugins 3 c2ProdState).state = [] ∧
    inactiveKeys (loadPlugins 3 c2ProdState).state = ["alpha", "beta"] ∧
    (loadPlugins 3 c2ProdState).state.db =
      [⟨0, "alpha", "Alpha", false⟩, ⟨1, "beta", "Beta", false⟩] :=
  ⟨c2_test_never_terminates, by decide, by decide, by decide, by decide,
    by decide⟩

end InvPlugin
